import Mathlib

/-!
# rclip: a verification development

Shallow embedding of `src/rclip.c` and theorems about it.

* C strings (`const char *`) are Lean `String`s read up to their first NUL
  byte (`cstr`); a nullable pointer is an `Option String`.
* C `int` values are `Int`s; the one narrowing conversion of the program
  (`long` to `int` in `parse_port`) is explicit (`to_int`).
* Every external call whose result the program inspects takes that result
  from the environment: once-only calls of the start-up phase from a record
  (`Boot`), calls of the main loop from a script of `SysRet`s consumed in
  program order.  The calls made are recorded, in order, in a trace.  Calls
  whose result the program discards (`close`, `shutdown`, `dup2`, the output
  functions) are recorded and take nothing from the environment; the text
  printed by `usage()` is not modelled.  The one exception is the `perror` of
  line 205: the `switch` of line 206 reads `errno` after it, so the value of
  `errno` it leaves is taken from the environment like a result.
* The process's descriptor table is carried along and updated the way the
  kernel does (`accept4`, `close`, `dup2`, `execve`).
* The main loop is a transition system whose program points are the system
  calls the process can be waiting in (`PC`); a finite script leaves the
  process either exited or at the program point of its next call.
-/

namespace Rclip

/-! ## Constants of the C library and of Linux -/

/-- Linux `errno` values used by the program (asm-generic/errno-base.h, errno.h). -/
def EINTR : Int := 4
def EAGAIN : Int := 11
def ERANGE : Int := 34
def ENONET : Int := 64
def EPROTO : Int := 71
def ENOPROTOOPT : Int := 92
def ENETDOWN : Int := 100
def ENETUNREACH : Int := 101
def EHOSTDOWN : Int := 112
def EHOSTUNREACH : Int := 113

/-- Value of `POLLIN` in poll.h. -/
def POLLIN : Nat := 1

/-- Values of `SHUT_RD` and `SHUT_WR` in sys/socket.h. -/
def SHUT_RD : Nat := 0
def SHUT_WR : Nat := 1

/-- The terminating byte of a C string. -/
def NUL : Char := Char.ofNat 0

/-- The characters of a C string: those before the first NUL byte. -/
def cstr (s : String) : List Char := s.toList.takeWhile (fun c => c ≠ NUL)

/-! ## Calls and the descriptor table -/

/-- External calls made by the program, with their arguments. -/
inductive Call where
  | usage
  | printf (fmt : String) (arg : String)
  | eprintf (fmt : String) (arg : String)
  | perror (msg : String)
  | socket
  | bind (fd : Int) (addr : Nat) (port : Int)
  | listen (fd : Int) (backlog : Nat)
  | open_devnull
  | poll
  | accept4 (fd : Int)
  | fork
  | close (fd : Int)
  | shutdown (fd : Int) (how : Nat)
  | dup2 (oldfd newfd : Int)
  | execl (path : String) (args : List (Option String))
  | abort
  deriving DecidableEq, Repr

/-- Open file descriptions a descriptor of the process can refer to. -/
inductive File where
  | inherited (fd : Int)
  | listener (name : String)
  | null
  | conn (endpoint : Nat) (fd : Int)
  deriving DecidableEq, Repr

/-- One slot of the descriptor table: the description and the close-on-exec flag. -/
structure Entry where
  file : File
  cloexec : Bool
  deriving DecidableEq, Repr

/-- The descriptor table of a process. Negative numbers are never open. -/
abbrev FdTable := Int → Option Entry

/-- Table lookup as the kernel does it: a negative descriptor is invalid. -/
def FdTable.get (t : FdTable) (fd : Int) : Option Entry :=
  if fd < 0 then none else t fd

/-- Install or clear one slot. -/
def FdTable.set (t : FdTable) (fd : Int) (e : Option Entry) : FdTable :=
  fun x => if x = fd then e else t x

/-- Kernel effect of `close(fd)`. -/
def FdTable.close (t : FdTable) (fd : Int) : FdTable :=
  if fd < 0 then t else t.set fd none

/-- Kernel effect of `dup2(oldfd, newfd)`: fails with the table unchanged when
`oldfd` is not open; does nothing when both are equal; otherwise `newfd` refers
to the description of `oldfd` with the close-on-exec flag cleared. -/
def FdTable.dup2 (t : FdTable) (oldfd newfd : Int) : FdTable :=
  match t.get oldfd with
  | none => t
  | some e => if oldfd = newfd ∨ newfd < 0 then t else t.set newfd (some ⟨e.file, false⟩)

/-- Kernel effect of a successful `execve` on the table: close-on-exec slots are closed. -/
def FdTable.exec (t : FdTable) : FdTable :=
  fun x => match t.get x with
    | some e => if e.cloexec then none else some e
    | none => none

/-- The table of a process started with the three standard streams open. -/
def std_fds : FdTable :=
  fun fd => if fd = 0 ∨ fd = 1 ∨ fd = 2 then some ⟨File.inherited fd, false⟩ else none

/-! ## parse_port -/

/-- The `isspace` of the "C" locale. -/
def isspace (c : Char) : Bool :=
  c.toNat = 32 || (9 ≤ c.toNat && c.toNat ≤ 13)

/-- The `isdigit` of the C library. -/
def isdigit (c : Char) : Bool :=
  48 ≤ c.toNat && c.toNat ≤ 57

/-- The longest run of decimal digits at the head of a string, accumulated
onto `acc`, and what follows it. -/
def strtol_digits : List Char → Nat → Nat × List Char
  | [], acc => (acc, [])
  | c :: cs, acc =>
    if isdigit c then strtol_digits cs (acc * 10 + (c.toNat - 48)) else (acc, c :: cs)

/-- Largest and smallest value of a `long` of `lb` bits. -/
def LONG_MAX (lb : Nat) : Int := 2 ^ (lb - 1) - 1
def LONG_MIN (lb : Nat) : Int := -(2 ^ (lb - 1))

/-- What `strtol(nptr, &end_ptr, 10)` delivers: the value returned, the string
at `end_ptr`, and whether `errno` was set to `ERANGE`. -/
structure StrtolResult where
  value : Int
  rest : List Char
  erange : Bool
  deriving DecidableEq, Repr

/-- The sign part of a subject sequence: whether it is negative, and the rest. -/
def strtol_sign : List Char → Bool × List Char
  | c :: cs => if c = '-' then (true, cs) else if c = '+' then (false, cs) else (false, c :: cs)
  | [] => (false, [])

/-- The C library's `strtol` in base 10 for a `long` of `lb` bits (ISO C
7.22.1.4): leading white space, an optional sign, then digits; without digits
nothing is consumed and 0 is returned; a value out of the range of `long` is
clamped and reported by `ERANGE`. -/
def strtol (lb : Nat) (nptr : List Char) : StrtolResult :=
  let body := strtol_sign (nptr.dropWhile isspace)
  match body.2 with
  | [] => ⟨0, nptr, false⟩
  | c :: cs =>
    if isdigit c then
      let d := strtol_digits (c :: cs) 0
      let v : Int := if body.1 then -(d.1 : Int) else (d.1 : Int)
      if LONG_MAX lb < v then ⟨LONG_MAX lb, d.2, true⟩
      else if v < LONG_MIN lb then ⟨LONG_MIN lb, d.2, true⟩
      else ⟨v, d.2, false⟩
    else ⟨0, nptr, false⟩

/-- Conversion of a `long` to the 32-bit `int` in `const int port = strtol(...)`:
reduction modulo 2^32 into the range of `int` (as GCC and Clang define it). -/
def to_int (v : Int) : Int := (v + 2147483648) % 4294967296 - 2147483648

/-- What a call of `parse_port` delivers: the value returned, `errno` after the
call, and the output made. -/
structure PortResult where
  ret : Int
  errno : Int
  out : List Call
  deriving DecidableEq, Repr

/-- `parse_port` (rclip.c lines 38 to 50), called with `errno` as given, on a
target whose `long` has `lb` bits. The test `end_ptr[0] != 0` is `rest ≠ []`,
and `end_ptr` is never NULL after `strtol`. -/
def parse_port (lb : Nat) (errno : Int) (port_s : String) : PortResult :=
  let r := strtol lb (cstr port_s)
  let errno1 : Int := if r.erange then ERANGE else errno
  let port : Int := to_int r.value
  if errno1 ≠ 0 ∨ r.rest ≠ [] ∨ port ≤ 0 ∨ 65536 ≤ port then
    ⟨-1, errno1, [Call.printf "invalid port: %s" port_s]⟩
  else
    ⟨port, errno1, []⟩

/-- Stated from the specification: the mathematical value of a string that is, as a
whole, a base-10 integer in the syntax `strtol` accepts (white space, an
optional sign, at least one digit, nothing after the digits); `none` for any
other string. -/
def decimal_value (nptr : List Char) : Option Int :=
  let body := strtol_sign (nptr.dropWhile isspace)
  match body.2 with
  | [] => none
  | c :: cs =>
    if isdigit c then
      let d := strtol_digits (c :: cs) 0
      if d.2 = [] then some (if body.1 then -(d.1 : Int) else (d.1 : Int)) else none
    else none

/-- Stated from the specification: the port a string stands for, -1 unless its
value is from 1 to 65535. -/
def port_of : Option Int → Int
  | some v => if 1 ≤ v ∧ v ≤ 65535 then v else -1
  | none => -1

/-! ## make_sock -/

/-- Results of the three system calls of one `make_sock` call. -/
structure SockRets where
  socket_r : Int
  bind_r : Int
  listen_r : Int
  deriving DecidableEq, Repr

/-- The text `snprintf(buf, 32, fmt, name)` leaves in `buf` for a format of
the shape `<lead>%s`: at most 31 characters. -/
def snprintf32 (lead : String) (name : String) : String :=
  String.mk ((lead.toList ++ cstr name).take 31)

/-- What a call of `make_sock` delivers: the value returned, the descriptor
table after it, and the calls made. -/
structure SockResult where
  ret : Int
  fds : FdTable
  out : List Call

/-- `make_sock` (rclip.c lines 52 to 84). A created socket is close-on-exec
(`SOCK_CLOEXEC`); it is not closed when `bind` or `listen` fails. -/
def make_sock (name : String) (addr : Nat) (port : Int) (k : SockRets) (fds : FdTable) :
    SockResult :=
  if k.socket_r < 0 then
    ⟨-1, fds, [Call.socket, Call.perror (snprintf32 "error creating " name)]⟩
  else
    let fds1 := fds.set k.socket_r (some ⟨File.listener name, true⟩)
    if k.bind_r < 0 then
      ⟨-1, fds1, [Call.socket, Call.bind k.socket_r addr port,
        Call.perror (snprintf32 "error binding " name)]⟩
    else if k.listen_r < 0 then
      ⟨-1, fds1, [Call.socket, Call.bind k.socket_r addr port, Call.listen k.socket_r 4,
        Call.perror (snprintf32 "error listening on " name)]⟩
    else
      ⟨k.socket_r, fds1, [Call.socket, Call.bind k.socket_r addr port,
        Call.listen k.socket_r 4]⟩

/-! ## The process state -/

/-- How a process ended: `main` returned, `abort()` was called, or `execl`
replaced the program. -/
inductive Outcome where
  | returned (status : Int)
  | aborted
  | execd
  deriving DecidableEq, Repr

/-- Program points: the call the process makes next. `at_poll` is line 186,
`at_accept i` line 199 in the pass for endpoint `i`, `at_perror i` the `perror`
of line 205 after a failed `accept4` on endpoint `i`, `at_fork i accept_r`
line 216, `at_execl i` the `execl` of line 230 (`i = 0`) or 238 in the child. -/
inductive PC where
  | at_poll
  | at_accept (i : Nat)
  | at_perror (i : Nat)
  | at_fork (i : Nat) (accept_r : Int)
  | at_execl (i : Nat)
  | exited (o : Outcome)
  deriving DecidableEq, Repr

/-- The variables of `main` that outlive the start-up phase, the descriptor
table and the trace of calls made so far. -/
structure State where
  pc : PC
  copy_command : Option String
  paste_command : Option String
  devnull_fd : Int
  fd0 : Int
  fd1 : Int
  revents0 : Nat
  revents1 : Nat
  fds : FdTable
  trace : List Call

/-- Record calls in the trace. -/
def State.emit (s : State) (cs : List Call) : State :=
  { s with trace := s.trace ++ cs }

/-- The value of `poll_fds[i].fd`. -/
def State.poll_fd (s : State) (i : Nat) : Int :=
  if i = 0 then s.fd0 else s.fd1

/-- The result of one call as the process sees it: the value returned,
`errno` when it failed (for the `perror` of line 205: `errno` as that call
leaves it), and for `poll` the `revents` written for the two descriptors. -/
structure SysRet where
  ret : Int
  errno : Int
  revents0 : Nat
  revents1 : Nat
  deriving DecidableEq, Repr

/-! ## The main loop (rclip.c lines 185 to 250) -/

/-- End of the `for` loop: lines 248 and 249, then back to `poll`. -/
def for_end (s : State) : State :=
  { s with revents0 := 0, revents1 := 0, pc := PC.at_poll }

/-- The `for` loop entered at `i = 1`: the test of line 195 on endpoint 1. -/
def for_from_1 (s : State) : State :=
  if (s.revents1 ||| POLLIN) = 0 then for_end s else { s with pc := PC.at_accept 1 }

/-- The `for` loop entered at `i = 0`: the test of line 195 on endpoint 0. -/
def for_from_0 (s : State) : State :=
  if (s.revents0 ||| POLLIN) = 0 then for_from_1 s else { s with pc := PC.at_accept 0 }

/-- The `for` loop of line 194 entered with the given value of `i`. -/
def for_from (s : State) (i : Nat) : State :=
  if i = 0 then for_from_0 s else if i = 1 then for_from_1 s else for_end s

/-- The errno values of the `switch` of lines 206 to 209. -/
def transient (e : Int) : Bool :=
  e = ENETDOWN || e = EPROTO || e = ENOPROTOOPT || e = EHOSTDOWN ||
  e = ENONET || e = EHOSTUNREACH || e = ENETUNREACH

/-- The child branch (lines 222 to 242) up to the `execl` call: the calls
made, with the kernel's effect of the three `dup2` on the table. -/
def child (s : State) (i : Nat) (accept_r : Int) : State :=
  if i = 0 then
    { s with
      trace := s.trace ++ [Call.shutdown accept_r SHUT_WR, Call.dup2 accept_r 0,
        Call.dup2 s.devnull_fd 1, Call.dup2 s.devnull_fd 2]
      fds := ((s.fds.dup2 accept_r 0).dup2 s.devnull_fd 1).dup2 s.devnull_fd 2
      pc := PC.at_execl 0 }
  else if i = 1 then
    { s with
      trace := s.trace ++ [Call.shutdown accept_r SHUT_RD, Call.dup2 s.devnull_fd 0,
        Call.dup2 accept_r 1, Call.dup2 s.devnull_fd 2]
      fds := ((s.fds.dup2 s.devnull_fd 0).dup2 accept_r 1).dup2 s.devnull_fd 2
      pc := PC.at_execl 1 }
  else
    { s with trace := s.trace ++ [Call.abort], pc := PC.exited Outcome.aborted }

/-- Lines 186 to 193: `poll` returned `r`. -/
def step_poll (s : State) (r : SysRet) : State :=
  let s1 := s.emit [Call.poll]
  if r.ret < 0 then
    if r.errno = EINTR then s1
    else { s1.emit [Call.perror "error polling"] with pc := PC.exited (Outcome.returned 2) }
  else
    for_from { s1 with revents0 := r.revents0, revents1 := r.revents1 } 0

/-- Lines 199 to 204 and 215: `accept4` on endpoint `i` returned `r`. The
test of `errno` against `EAGAIN` follows the call at once. An accepted
connection is a new close-on-exec descriptor (`SOCK_CLOEXEC`). -/
def step_accept (s : State) (i : Nat) (r : SysRet) : State :=
  let s1 := s.emit [Call.accept4 (s.poll_fd i)]
  if r.ret < 0 then
    if r.errno = EAGAIN then for_from s1 (i + 1)
    else { s1 with pc := PC.at_perror i }
  else
    { s1 with
      fds := s1.fds.set r.ret (some ⟨File.conn i r.ret, true⟩)
      pc := PC.at_fork i r.ret }

/-- Lines 205 to 213: the `perror` after a failed `accept4` on endpoint `i`
returned, leaving `errno` as `r.errno`; the `switch` of line 206 reads that
value, not the one `accept4` had set. -/
def step_perror (s : State) (i : Nat) (r : SysRet) : State :=
  let s2 := s.emit [Call.perror "error accepting"]
  if transient r.errno then { s2 with pc := PC.at_accept i }
  else { s2.emit [Call.perror "error accepting"] with
          pc := PC.exited (Outcome.returned 2) }

/-- Lines 216 to 244: `fork` returned `r`; in the child up to its `execl`,
in the parent up to the next `accept4`. -/
def step_fork (s : State) (i : Nat) (accept_r : Int) (r : SysRet) : State :=
  let s1 := s.emit [Call.fork]
  if r.ret < 0 then
    { s1.emit [Call.perror "error forking"] with pc := PC.exited (Outcome.returned 2) }
  else if r.ret = 0 then child s1 i accept_r
  else
    { s1.emit [Call.close accept_r] with
      fds := s1.fds.close accept_r
      pc := PC.at_accept i }

/-- Lines 230, 238 and 241: the `execl` of the child of endpoint `i`, with
the copy command for `i = 0` and the paste command otherwise. It returns only
when it failed, and then `abort()` is called; otherwise the program is
replaced and the close-on-exec descriptors are closed. -/
def step_execl (s : State) (i : Nat) (r : SysRet) : State :=
  let s1 := s.emit [Call.execl "/bin/sh"
    [some "sh", some "-c", if i = 0 then s.copy_command else s.paste_command]]
  if r.ret < 0 then { s1.emit [Call.abort] with pc := PC.exited Outcome.aborted }
  else { s1 with fds := s1.fds.exec, pc := PC.exited Outcome.execd }

/-- One system call of the main loop: the process makes the call of its
program point, receives `r`, and runs to its next call or to its end. -/
def step (s : State) (r : SysRet) : State :=
  match s.pc with
  | PC.at_poll => step_poll s r
  | PC.at_accept i => step_accept s i r
  | PC.at_perror i => step_perror s i r
  | PC.at_fork i accept_r => step_fork s i accept_r r
  | PC.at_execl i => step_execl s i r
  | PC.exited _ => s

/-- The process run against a script of system call results. -/
def run (s : State) : List SysRet → State
  | [] => s
  | r :: rs => run (step s r) rs

/-! ## Start-up (rclip.c lines 86 to 183) -/

/-- Values `getopt_long` returns for the options of the program. -/
def OPT_h : Int := 104
def OPT_c : Int := 99
def OPT_p : Int := 112
def OPT_a : Int := 97
def OPT_unknown : Int := 63

/-- What the environment of the start-up phase delivers: the width of `long`,
the two environment variables, the successive returns of `getopt_long` before
its final -1 (the value returned and `optarg`), `optind` after it, the address
`inet_aton` yields for a text (or failure), `errno` when `parse_port` is
first called, the results of the socket calls and of `open`, and the
descriptor table the process starts with. -/
structure Boot where
  long_bits : Nat
  wayland_display : Option String
  display : Option String
  opts : List (Int × String)
  optind : Nat
  inet_aton : String → Option Nat
  errno : Int
  copy_sock : SockRets
  paste_sock : SockRets
  open_r : Int
  fds : FdTable

/-- The test `env_tmp != NULL && env_tmp[0] != 0` of lines 108 and 111. -/
def env_set (v : Option String) : Bool :=
  match v with
  | some x => cstr x ≠ []
  | none => false

/-- The command strings after lines 104 to 114. -/
def default_commands (b : Boot) : Option String × Option String :=
  if env_set b.wayland_display then (some "wl-copy", some "wl-paste")
  else if env_set b.display then
    (some "xclip -selection clipboard", some "xclip -out -selection clipboard")
  else (none, none)

/-- How the option loop ends: it runs to its end with the values of
`copy_command`, `paste_command` and `bind_addr`, or `main` ends inside it. -/
inductive OptResult where
  | parsed (copy_command paste_command : Option String) (bind_addr : Nat)
  | stop (o : Outcome) (out : List Call)
  deriving DecidableEq, Repr

/-- The option loop of lines 118 to 146 over the returns of `getopt_long`. -/
def parse_options (inet_aton : String → Option Nat) :
    List (Int × String) → Option String → Option String → Nat → OptResult
  | [], cc, pc, addr => OptResult.parsed cc pc addr
  | (c, optarg) :: rest, cc, pc, addr =>
    if c = OPT_h then OptResult.stop (Outcome.returned 0) [Call.usage]
    else if c = OPT_c then parse_options inet_aton rest (some optarg) pc addr
    else if c = OPT_p then parse_options inet_aton rest cc (some optarg) addr
    else if c = OPT_a then
      match inet_aton optarg with
      | none => OptResult.stop (Outcome.returned 1) [Call.eprintf "invalid address: %s" optarg]
      | some a => parse_options inet_aton rest cc pc a
    else if c = OPT_unknown then OptResult.stop (Outcome.returned 1) []
    else OptResult.stop Outcome.aborted [Call.abort]

/-- A process that ended during start-up. -/
def ended (o : Outcome) (cc pc : Option String) (fds : FdTable) (out : List Call) : State :=
  { pc := PC.exited o, copy_command := cc, paste_command := pc, devnull_fd := -1,
    fd0 := -1, fd1 := -1, revents0 := 0, revents1 := 0, fds := fds, trace := out }

/-- The value of `htonl(INADDR_ANY)`. -/
def INADDR_ANY : Nat := 0

/-- Kernel effect of `open("/dev/null", O_RDWR | O_CLOEXEC)` returning `r`. -/
def open_devnull (fds : FdTable) (r : Int) : FdTable :=
  if r < 0 then fds else fds.set r (some ⟨File.null, true⟩)

/-- Lines 148 to 183 of `main`: from the test on the arguments to the first
`poll`, with the values the option loop left. -/
def after_options (argv : List String) (b : Boot)
    (copy_command paste_command : Option String) (bind_addr : Nat) : State :=
  let argc : Int := argv.length
  if argc - b.optind < 2 ∨ copy_command = none ∨ paste_command = none then
    ended (Outcome.returned 1) copy_command paste_command b.fds
      [Call.eprintf "missing arguments" "", Call.usage]
  else
    let p0 := parse_port b.long_bits b.errno (argv.getD (b.optind + 0) "")
    if p0.ret < 0 then
      ended (Outcome.returned 1) copy_command paste_command b.fds p0.out
    else
      let p1 := parse_port b.long_bits p0.errno (argv.getD (b.optind + 1) "")
      if p1.ret < 0 then
        ended (Outcome.returned 1) copy_command paste_command b.fds (p0.out ++ p1.out)
      else
        let s0 := make_sock "copy_socket" bind_addr p0.ret b.copy_sock b.fds
        if s0.ret < 1 then
          ended (Outcome.returned 2) copy_command paste_command s0.fds
            (p0.out ++ p1.out ++ s0.out)
        else
          let s1 := make_sock "paste_socket" bind_addr p1.ret b.paste_sock s0.fds
          if s1.ret < 1 then
            ended (Outcome.returned 2) copy_command paste_command s1.fds
              (p0.out ++ p1.out ++ s0.out ++ s1.out)
          else
            { pc := PC.at_poll
              copy_command := copy_command
              paste_command := paste_command
              devnull_fd := b.open_r
              fd0 := s0.ret
              fd1 := s1.ret
              revents0 := 0
              revents1 := 0
              fds := open_devnull s1.fds b.open_r
              trace := p0.out ++ p1.out ++ s0.out ++ s1.out ++ [Call.open_devnull] }

/-- Lines 86 to 183 of `main`: everything before the main loop. The result is
the process at its first `poll`, or ended. -/
def startup (argv : List String) (b : Boot) : State :=
  let argc : Int := argv.length
  if argc = 1 then ended (Outcome.returned 0) none none b.fds [Call.usage]
  else
    let d := default_commands b
    match parse_options b.inet_aton b.opts d.1 d.2 INADDR_ANY with
    | OptResult.stop o out => ended o d.1 d.2 b.fds out
    | OptResult.parsed copy_command paste_command bind_addr =>
      after_options argv b copy_command paste_command bind_addr

/-- The program `main`: start-up, then the main loop run against the script. -/
def main (argv : List String) (b : Boot) (script : List SysRet) : State :=
  run (startup argv b) script

/-! ## Vocabulary of the statements and concrete environments -/

/-- The calls that create or set up a socket: `socket`, `bind`, `listen`. -/
def Call.socket_setup : Call → Bool
  | Call.socket => true
  | Call.bind _ _ _ => true
  | Call.listen _ _ => true
  | _ => false

/-- What one turn of the accept loop meets: a pending connection, given by
the results of `accept4` and of `fork`, or a failed `accept4`, given by its
result and by what the `perror` of line 205 leaves. -/
inductive Pending where
  | conn (accept_r fork_r : SysRet)
  | failed (accept_r perror_r : SysRet)
  deriving DecidableEq, Repr

/-- A connection accepted and forked for in the parent, or a failure with one
of the errno values of lines 207 and 208 which `perror` leaves in `errno`. -/
def Pending.ok : Pending → Bool
  | Pending.conn a f => decide (0 ≤ a.ret) && decide (0 < f.ret)
  | Pending.failed a p => decide (a.ret < 0) && transient a.errno && decide (p.errno = a.errno)

/-- The call results of a sequence of turns, in order. -/
def drain_script : List Pending → List SysRet
  | [] => []
  | Pending.conn a f :: ps => a :: f :: drain_script ps
  | Pending.failed a p :: ps => a :: p :: drain_script ps

/-- The calls a sequence of turns is expected to cause on the listening
descriptor `fd`: per connection `accept4`, `fork`, `close` of the accepted
descriptor; per failure `accept4` and the diagnostic. -/
def drain_calls (fd : Int) : List Pending → List Call
  | [] => []
  | Pending.conn a _ :: ps =>
    Call.accept4 fd :: Call.fork :: Call.close a.ret :: drain_calls fd ps
  | Pending.failed _ _ :: ps =>
    Call.accept4 fd :: Call.perror "error accepting" :: drain_calls fd ps

/-- The kernel hands out only descriptors that are not open: whether every
`accept4` result of the script that is a descriptor is closed in the table at
the time of the call. -/
def fresh_accepts : State → List SysRet → Bool
  | _, [] => true
  | s, r :: rs =>
    (match s.pc with
      | PC.at_accept _ => decide (r.ret < 0) || (s.fds.get r.ret).isNone
      | _ => true) && fresh_accepts (step s r) rs

/-- A start-up environment of an X11 session: `DISPLAY` set, no options, the
two sockets created as descriptors 3 and 4, the null device opened as 5. -/
def boot_x11 : Boot where
  long_bits := 64
  wayland_display := none
  display := some ":0"
  opts := []
  optind := 1
  inet_aton := fun a => if a = "127.0.0.1" then some 2130706433 else none
  errno := 0
  copy_sock := ⟨3, 0, 0⟩
  paste_sock := ⟨4, 0, 0⟩
  open_r := 5
  fds := std_fds

/-- The process at its first `poll` in the X11 start-up environment. -/
def first_poll : State := startup ["rclip", "9001", "9002"] boot_x11

/-- The start-up environment of `rclip -c "" -p "" 9001 9002` in an X11
session: both options given with an empty argument. -/
def boot_empty_commands : Boot :=
  { boot_x11 with opts := [(OPT_c, ""), (OPT_p, "")], optind := 5 }

/-- A start-up environment with neither `WAYLAND_DISPLAY` nor `DISPLAY` set. -/
def boot_no_display : Boot :=
  { boot_x11 with display := none }

/-- The calls the child branch makes: `shutdown`, `dup2`, `execl`, `abort`. -/
def Call.child_call : Call → Bool
  | Call.shutdown _ _ => true
  | Call.dup2 _ _ => true
  | Call.execl _ _ => true
  | Call.abort => true
  | _ => false

/-- An option the loop of lines 118 to 146 passes over: `-c`, `-p`, or `-a`
with an address `inet_aton` accepts. -/
def passed_option (inet_aton : String → Option Nat) (o : Int × String) : Bool :=
  decide (o.1 = OPT_c) || decide (o.1 = OPT_p) ||
    (decide (o.1 = OPT_a) && (inet_aton o.2).isSome)

/-- Whether one of the three system calls of a `make_sock` call fails. -/
def SockRets.failed (k : SockRets) : Bool :=
  decide (k.socket_r < 0) || decide (k.bind_r < 0) || decide (k.listen_r < 0)

/-- Stated from the specification (section 7): the configuration and argument
failures of a start-up. A bad address: the first option the loop does not
pass over is `-a` with a text `inet_aton` rejects. An unknown option: that
first option is reported by `getopt_long` as `?`. Missing arguments or
command: the option loop runs to its end and fewer than two arguments follow
the options, or a command is NULL. A bad port: the loop runs to its end, two
arguments follow, and `parse_port` rejects the first or the second. -/
inductive ConfigFailure (argv : List String) (b : Boot) : Prop where
  | bad_address (before after : List (Int × String)) (a : String) :
      b.opts = before ++ (OPT_a, a) :: after →
      (∀ o ∈ before, passed_option b.inet_aton o = true) →
      b.inet_aton a = none → ConfigFailure argv b
  | unknown_option (before after : List (Int × String)) (x : String) :
      b.opts = before ++ (OPT_unknown, x) :: after →
      (∀ o ∈ before, passed_option b.inet_aton o = true) → ConfigFailure argv b
  | missing (cc pc : Option String) (addr : Nat) :
      parse_options b.inet_aton b.opts (default_commands b).1 (default_commands b).2
        INADDR_ANY = OptResult.parsed cc pc addr →
      ((argv.length : Int) - b.optind < 2 ∨ cc = none ∨ pc = none) → ConfigFailure argv b
  | bad_port (cc pc : Option String) (addr : Nat) :
      parse_options b.inet_aton b.opts (default_commands b).1 (default_commands b).2
        INADDR_ANY = OptResult.parsed cc pc addr →
      2 ≤ (argv.length : Int) - b.optind →
      ((parse_port b.long_bits b.errno (argv.getD b.optind "")).ret = -1 ∨
        (parse_port b.long_bits b.errno (argv.getD (b.optind + 1) "")).ret = -1) →
      ConfigFailure argv b

/-- Stated from the specification (section 7): a resource-setup failure of a
start-up. The option loop runs to its end with both commands present, two
arguments follow and `parse_port` accepts both, and a system call of
`make_sock` fails for the copy or for the paste endpoint. -/
def setup_failure (argv : List String) (b : Boot) : Prop :=
  ∃ cc pc addr,
    parse_options b.inet_aton b.opts (default_commands b).1 (default_commands b).2
      INADDR_ANY = OptResult.parsed (some cc) (some pc) addr ∧
    2 ≤ (argv.length : Int) - b.optind ∧
    (parse_port b.long_bits b.errno (argv.getD b.optind "")).ret ≠ -1 ∧
    (parse_port b.long_bits b.errno (argv.getD (b.optind + 1) "")).ret ≠ -1 ∧
    (b.copy_sock.failed = true ∨ b.paste_sock.failed = true)

/-- The start-up environment of `rclip -c cat -a nowhere 9001 9002`: the text
given to `-a` is not an address. -/
def boot_bad_address : Boot :=
  { boot_x11 with opts := [(OPT_c, "cat"), (OPT_a, "nowhere")], optind := 5 }

/-- The X11 start-up environment in which `bind` fails for the copy socket. -/
def boot_bind_fails : Boot :=
  { boot_x11 with copy_sock := ⟨3, -1, 0⟩ }

/-- The X11 start-up environment in which opening the null device fails. -/
def boot_no_devnull : Boot :=
  { boot_x11 with open_r := -1 }

/-- The table of the parent against the table `f0` of the first `poll`: the
same at `poll`, `accept4` and the `perror` of line 205, and with the one
accepted descriptor added at `fork`. -/
def handles_inv (f0 : FdTable) (s : State) : Prop :=
  match s.pc with
  | PC.at_poll => s.fds = f0
  | PC.at_accept _ => s.fds = f0
  | PC.at_perror _ => s.fds = f0
  | PC.at_fork _ c => 0 ≤ c ∧ f0 c = none ∧ ∃ e, s.fds = f0.set c (some e)
  | _ => True

/-! ## Basic facts -/

theorem run_nil (s : State) : run s [] = s := rfl

theorem run_cons (s : State) (r : SysRet) (rs : List SysRet) :
    run s (r :: rs) = run (step s r) rs := rfl

theorem run_append (s : State) (xs ys : List SysRet) :
    run s (xs ++ ys) = run (run s xs) ys := by
  induction xs generalizing s with
  | nil => rfl
  | cons r rs ih => simp [run_cons, ih]

theorem step_exited (s : State) (o : Outcome) (h : s.pc = PC.exited o) (r : SysRet) :
    step s r = s := by
  unfold step
  rw [h]

theorem run_exited (s : State) (o : Outcome) (h : s.pc = PC.exited o) (rs : List SysRet) :
    run s rs = s := by
  induction rs with
  | nil => rfl
  | cons r rs ih => rw [run_cons, step_exited s o h r, ih]

/-- `parse_port` returns -1 or a number from 1 to 65535. -/
theorem parse_port_ret (lb : Nat) (e : Int) (t : String) :
    (parse_port lb e t).ret = -1 ∨
      (1 ≤ (parse_port lb e t).ret ∧ (parse_port lb e t).ret ≤ 65535) := by
  unfold parse_port
  simp only
  split_ifs with h1 h2 h3
  · left; rfl
  · right
    simp only [not_or, not_le] at h2
    dsimp only
    omega
  · left; rfl
  · right
    simp only [not_or, not_le] at h3
    dsimp only
    omega

/-- When `parse_port` accepts, `errno` was 0, still is, and nothing was printed. -/
theorem parse_port_accepts (lb : Nat) (e : Int) (t : String)
    (h : (parse_port lb e t).ret ≠ -1) :
    e = 0 ∧ (parse_port lb e t).errno = 0 ∧ (parse_port lb e t).out = [] := by
  unfold parse_port at h ⊢
  simp only at h ⊢
  split_ifs at h ⊢ with h1 h2 h3
  · exact absurd rfl h
  · simp [ERANGE] at h2
  · exact absurd rfl h
  · simp only [not_or, not_not] at h3
    exact ⟨h3.1, h3.1, rfl⟩

/-- When `parse_port` rejects, it prints the diagnostic of line 45. -/
theorem parse_port_rejects (lb : Nat) (e : Int) (t : String)
    (h : (parse_port lb e t).ret = -1) :
    (parse_port lb e t).out = [Call.printf "invalid port: %s" t] := by
  unfold parse_port at h ⊢
  simp only at h ⊢
  split_ifs at h ⊢ with h1 h2 h3
  · rfl
  · simp [ERANGE] at h2
  · rfl
  · simp only [not_or, not_le] at h3
    dsimp only at h
    omega

/-! ## C1: parse_port -/

/-- C1 (code defect): on a target whose `long` has 64 bits, `parse_port` called
with `errno = 0` on "4294967297" returns 1. `strtol` consumes the whole
string as the value 2^32 + 1 without a range error, the conversion to `int`
leaves 1, and the range test passes: a string whose numeric value lies
outside 1..65535 is accepted as a port. -/
theorem parse_port_wraps_long :
    strtol 64 (cstr "4294967297") = ⟨4294967297, [], false⟩ ∧
      parse_port 64 0 "4294967297" = ⟨1, 0, []⟩ := by
  decide

theorem long_max_ge (lb : Nat) (h : 32 ≤ lb) : 2147483647 ≤ LONG_MAX lb := by
  unfold LONG_MAX
  have h1 : (2 : Int) ^ 31 ≤ 2 ^ (lb - 1) := pow_le_pow_right₀ (by norm_num) (by omega)
  norm_num at h1
  omega

theorem long_min_le (lb : Nat) (h : 32 ≤ lb) : LONG_MIN lb ≤ -2147483648 := by
  unfold LONG_MIN
  have h1 : (2 : Int) ^ 31 ≤ 2 ^ (lb - 1) := pow_le_pow_right₀ (by norm_num) (by omega)
  norm_num at h1
  omega

/-- Where the contract of `parse_port` does hold: called with `errno = 0`, it
returns the port the string stands for, and -1 for every other string, on a
target whose `long` has 32 bits, and on any wider target for the strings whose
value fits a 32-bit `int`. -/
theorem parse_port_spec (lb : Nat) (t : String) (hlb : 32 ≤ lb)
    (hfit : ∀ v, decimal_value (cstr t) = some v →
      lb = 32 ∨ (-2147483648 ≤ v ∧ v ≤ 2147483647)) :
    (parse_port lb 0 t).ret = port_of (decimal_value (cstr t)) := by
  have hmax := long_max_ge lb hlb
  have hmin := long_min_le lb hlb
  have hmax32 : lb = 32 → LONG_MAX lb = 2147483647 := by
    intro h; subst h; decide
  have hmin32 : lb = 32 → LONG_MIN lb = -2147483648 := by
    intro h; subst h; decide
  unfold parse_port strtol
  unfold decimal_value at hfit ⊢
  simp only at hfit ⊢
  generalize LONG_MAX lb = M at hmax hmax32 ⊢
  generalize LONG_MIN lb = m at hmin hmin32 ⊢
  cases hb : (strtol_sign (List.dropWhile isspace (cstr t))).2 with
  | nil =>
    simp [hb, to_int, port_of]
  | cons c cs =>
    simp only [hb] at hfit ⊢
    by_cases hd : isdigit c = true
    · simp only [hd, if_true] at hfit ⊢
      by_cases hrest : (strtol_digits (c :: cs) 0).2 = []
      · simp only [hrest, if_true] at hfit ⊢
        have hv := hfit _ rfl
        generalize (if (strtol_sign (List.dropWhile isspace (cstr t))).1 = true then
          -((strtol_digits (c :: cs) 0).1 : Int) else ((strtol_digits (c :: cs) 0).1 : Int)) = v
          at hv ⊢
        have hrange : (M < v → 65535 < v) ∧ (v < m → v < 1) ∧
            (¬ M < v → ¬ v < m → to_int v = v) := by
          refine ⟨fun h => by omega, fun h => by omega, fun h1 h2 => ?_⟩
          unfold to_int
          rcases hv with hv | hv
          · have := hmax32 hv
            have := hmin32 hv
            omega
          · omega
        obtain ⟨r1, r2, r3⟩ := hrange
        unfold port_of
        by_cases h1 : M < v
        · have := r1 h1
          have h3 : ¬ (1 ≤ v ∧ v ≤ 65535) := by omega
          simp [h1, h3, ERANGE]
        · by_cases h2 : v < m
          · have := r2 h2
            have h3 : ¬ (1 ≤ v ∧ v ≤ 65535) := by omega
            simp [h1, h2, h3, ERANGE]
          · have h4 := r3 h1 h2
            simp only [h1, h2, if_false, h4]
            by_cases h3 : 1 ≤ v ∧ v ≤ 65535
            · have h5 : ¬ (v ≤ 0 ∨ 65536 ≤ v) := by omega
              simp [h3, h5]
            · have h5 : v ≤ 0 ∨ 65536 ≤ v := by omega
              simp [h3, h5]
      · simp only [hrest, if_false]
        unfold port_of
        by_cases h1 : M < (if (strtol_sign (List.dropWhile isspace (cstr t))).1 = true then
          -((strtol_digits (c :: cs) 0).1 : Int) else ((strtol_digits (c :: cs) 0).1 : Int))
        · simp [h1, ERANGE]
        · by_cases h2 : (if (strtol_sign (List.dropWhile isspace (cstr t))).1 = true then
            -((strtol_digits (c :: cs) 0).1 : Int) else ((strtol_digits (c :: cs) 0).1 : Int)) < m
          · simp [h1, h2, ERANGE]
          · simp [h1, h2, hrest]
    · simp [hd, to_int, port_of]

theorem parse_port_spec_example :
    (parse_port 64 0 " +8080").ret = 8080 ∧ (parse_port 64 0 "65536").ret = -1 ∧
      (parse_port 32 0 "4294967297").ret = -1 := by
  have h1 : decimal_value (cstr " +8080") = some 8080 := by decide
  have h2 : decimal_value (cstr "65536") = some 65536 := by decide
  have h3 : decimal_value (cstr "4294967297") = some 4294967297 := by decide
  have e1 := parse_port_spec 64 " +8080" (by decide)
    (fun v hv => Or.inr (by rw [h1] at hv; cases hv; decide))
  have e2 := parse_port_spec 64 "65536" (by decide)
    (fun v hv => Or.inr (by rw [h2] at hv; cases hv; decide))
  have e3 := parse_port_spec 32 "4294967297" (by decide) (fun _ _ => Or.inl rfl)
  rw [h1] at e1
  rw [h2] at e2
  rw [h3] at e3
  exact ⟨e1, e2, e3⟩

/-! ## C2: a rejected port ends start-up before any socket exists -/

theorem after_options_bad_port (argv : List String) (b : Boot)
    (cc pc : Option String) (addr : Nat)
    (hbad : (parse_port b.long_bits b.errno (argv.getD b.optind "")).ret = -1 ∨
      (parse_port b.long_bits b.errno (argv.getD (b.optind + 1) "")).ret = -1) :
    (after_options argv b cc pc addr).pc = PC.exited (Outcome.returned 1) ∧
      ∀ c ∈ (after_options argv b cc pc addr).trace, c.socket_setup = false := by
  unfold after_options
  simp only [Nat.add_zero]
  have hr0 := parse_port_ret b.long_bits b.errno (argv.getD b.optind "")
  have hr1 := parse_port_ret b.long_bits
    (parse_port b.long_bits b.errno (argv.getD b.optind "")).errno (argv.getD (b.optind + 1) "")
  have hcontra : ¬ (parse_port b.long_bits b.errno (argv.getD b.optind "")).ret < 0 →
      ¬ (parse_port b.long_bits (parse_port b.long_bits b.errno (argv.getD b.optind "")).errno
        (argv.getD (b.optind + 1) "")).ret < 0 → False := by
    intro h2 h3
    have hne : (parse_port b.long_bits b.errno (argv.getD b.optind "")).ret ≠ -1 := by omega
    obtain ⟨he, he1, -⟩ := parse_port_accepts _ _ _ hne
    rw [he1] at h3
    rw [he] at hbad
    rcases hbad with hb | hb
    · rw [he] at hne; exact hne hb
    · omega
  split_ifs with h1 h2 h3 h4 h5
  · simp [ended, Call.socket_setup]
  · have hm : (parse_port b.long_bits b.errno (argv.getD b.optind "")).ret = -1 := by omega
    simp only [ended, parse_port_rejects _ _ _ hm]
    simp [Call.socket_setup]
  · have hne : (parse_port b.long_bits b.errno (argv.getD b.optind "")).ret ≠ -1 := by omega
    obtain ⟨-, -, ho⟩ := parse_port_accepts _ _ _ hne
    have hm : (parse_port b.long_bits
        (parse_port b.long_bits b.errno (argv.getD b.optind "")).errno
        (argv.getD (b.optind + 1) "")).ret = -1 := by omega
    simp only [ended, ho, parse_port_rejects _ _ _ hm]
    simp [Call.socket_setup]
  · exact absurd (hcontra h2 h3) id
  · exact absurd (hcontra h2 h3) id
  · exact absurd (hcontra h2 h3) id

theorem startup_parsed (argv : List String) (b : Boot) (cc pc : Option String) (addr : Nat)
    (hopt : parse_options b.inet_aton b.opts (default_commands b).1 (default_commands b).2
      INADDR_ANY = OptResult.parsed cc pc addr)
    (hargc : (argv.length : Int) ≠ 1) :
    startup argv b = after_options argv b cc pc addr := by
  unfold startup
  simp only [hargc, if_false, hopt]

theorem startup_bad_port (argv : List String) (b : Boot)
    (cc pc : Option String) (addr : Nat)
    (hopt : parse_options b.inet_aton b.opts (default_commands b).1 (default_commands b).2
      INADDR_ANY = OptResult.parsed cc pc addr)
    (hargs : 2 ≤ (argv.length : Int) - b.optind)
    (hbad : (parse_port b.long_bits b.errno (argv.getD b.optind "")).ret = -1 ∨
      (parse_port b.long_bits b.errno (argv.getD (b.optind + 1) "")).ret = -1) :
    (startup argv b).pc = PC.exited (Outcome.returned 1) ∧
      ∀ c ∈ (startup argv b).trace, c.socket_setup = false := by
  rw [startup_parsed argv b cc pc addr hopt (by omega)]
  exact after_options_bad_port argv b cc pc addr hbad

/-- C2: when the option loop runs to its end, at least two positional
arguments are present and `parse_port` rejects the first or the second of them,
`main` returns 1, whatever the script of later system call results, and its
trace holds no `socket`, `bind` or `listen` call. -/
theorem main_bad_port (argv : List String) (b : Boot) (script : List SysRet)
    (cc pc : Option String) (addr : Nat)
    (hopt : parse_options b.inet_aton b.opts (default_commands b).1 (default_commands b).2
      INADDR_ANY = OptResult.parsed cc pc addr)
    (hargs : 2 ≤ (argv.length : Int) - b.optind)
    (hbad : (parse_port b.long_bits b.errno (argv.getD b.optind "")).ret = -1 ∨
      (parse_port b.long_bits b.errno (argv.getD (b.optind + 1) "")).ret = -1) :
    (main argv b script).pc = PC.exited (Outcome.returned 1) ∧
      ∀ c ∈ (main argv b script).trace, c.socket_setup = false := by
  have h := startup_bad_port argv b cc pc addr hopt hargs hbad
  unfold main
  rw [run_exited _ _ h.1]
  exact h

theorem main_bad_port_witness :
    (main ["rclip", "9001", "99999"] boot_x11 []).pc = PC.exited (Outcome.returned 1) ∧
      ∀ c ∈ (main ["rclip", "9001", "99999"] boot_x11 []).trace, c.socket_setup = false :=
  main_bad_port ["rclip", "9001", "99999"] boot_x11 []
    (some "xclip -selection clipboard") (some "xclip -out -selection clipboard") 0
    (by decide) (by decide) (by decide)

/-! ## C3: exit statuses -/

theorem for_from_trace (s : State) (i : Nat) : (for_from s i).trace = s.trace := by
  unfold for_from for_from_0 for_from_1 for_end
  split_ifs <;> rfl

theorem for_from_fds (s : State) (i : Nat) : (for_from s i).fds = s.fds := by
  unfold for_from for_from_0 for_from_1 for_end
  split_ifs <;> rfl

theorem for_from_pc (s : State) (i : Nat) :
    (for_from s i).pc = PC.at_poll ∨ (for_from s i).pc = PC.at_accept 0 ∨
      (for_from s i).pc = PC.at_accept 1 := by
  unfold for_from for_from_0 for_from_1 for_end
  split_ifs <;> simp

/-- The trace only grows. -/
theorem step_trace (s : State) (r : SysRet) (c : Call) (h : c ∈ s.trace) :
    c ∈ (step s r).trace := by
  unfold step
  split
  · unfold step_poll
    simp only
    split_ifs <;> simp [for_from_trace, State.emit, h]
  · unfold step_accept
    simp only
    split_ifs <;> simp [for_from_trace, State.emit, h]
  · unfold step_perror
    simp only
    split_ifs <;> simp [State.emit, h]
  · unfold step_fork child
    simp only
    split_ifs <;> simp [State.emit, h]
  · unfold step_execl
    split_ifs <;> simp [State.emit, h]
  · exact h

theorem run_trace (s : State) (rs : List SysRet) (c : Call) (h : c ∈ s.trace) :
    c ∈ (run s rs).trace := by
  induction rs generalizing s with
  | nil => exact h
  | cons r rs ih => exact ih (step s r) (step_trace s r c h)

/-- A process that leaves the main loop by returning returns 2. -/
theorem step_status (s : State) (r : SysRet) (n : Int)
    (h : (step s r).pc = PC.exited (Outcome.returned n)) :
    s.pc = PC.exited (Outcome.returned n) ∨ n = 2 := by
  unfold step at h
  split at h
  · unfold step_poll at h
    simp only at h
    split_ifs at h
    · simp_all [State.emit]
    · simp [State.emit] at h; right; omega
    · rcases for_from_pc _ 0 with h1 | h1 | h1 <;> rw [h1] at h <;> simp at h
  · unfold step_accept at h
    simp only at h
    split_ifs at h
    · rcases for_from_pc _ _ with h1 | h1 | h1 <;> rw [h1] at h <;> simp at h
  · unfold step_perror at h
    simp only at h
    split_ifs at h
    · simp [State.emit] at h; right; omega
  · unfold step_fork child at h
    simp only at h
    split_ifs at h
    · simp [State.emit] at h; right; omega
    all_goals simp [State.emit] at h
  · unfold step_execl at h
    split_ifs at h <;> simp at h
  · left
    simp_all

theorem run_status (s : State) (rs : List SysRet) (n : Int)
    (h : (run s rs).pc = PC.exited (Outcome.returned n)) :
    s.pc = PC.exited (Outcome.returned n) ∨ n = 2 := by
  induction rs generalizing s with
  | nil => left; exact h
  | cons r rs ih =>
    rcases ih (step s r) h with h1 | h1
    · exact step_status s r n h1
    · right; exact h1

/-- The option loop ends `main` with status 0 only for help, and otherwise with
status 1, before any socket call. -/
theorem parse_options_stop (f : String → Option Nat) (opts : List (Int × String))
    (cc pc : Option String) (a : Nat) (n : Int) (out : List Call)
    (h : parse_options f opts cc pc a = OptResult.stop (Outcome.returned n) out) :
    (n = 0 ∧ out = [Call.usage]) ∨ (n = 1 ∧ Call.socket ∉ out) := by
  induction opts generalizing cc pc a with
  | nil => simp [parse_options] at h
  | cons o rest ih =>
    obtain ⟨c, optarg⟩ := o
    unfold parse_options at h
    split_ifs at h with h1 h2 h3 h4 h5
    · simp at h
      left
      exact ⟨h.1.symm, h.2.symm⟩
    · exact ih _ _ _ h
    · exact ih _ _ _ h
    · split at h
      · simp at h
        right
        refine ⟨h.1.symm, ?_⟩
        rw [← h.2]
        simp
      · exact ih _ _ _ h
    · simp at h
      right
      refine ⟨h.1.symm, ?_⟩
      rw [h.2]
      simp
    · simp at h

theorem make_sock_calls_socket (name : String) (addr : Nat) (port : Int) (k : SockRets)
    (fds : FdTable) : Call.socket ∈ (make_sock name addr port k fds).out := by
  unfold make_sock
  split_ifs <;> simp

theorem after_options_pc (argv : List String) (b : Boot) (cc pc : Option String)
    (addr : Nat) :
    (∃ o, (after_options argv b cc pc addr).pc = PC.exited o) ∨
      ((after_options argv b cc pc addr).pc = PC.at_poll ∧
        Call.socket ∈ (after_options argv b cc pc addr).trace) := by
  unfold after_options
  simp only
  split_ifs
  · left; exact ⟨_, rfl⟩
  · left; exact ⟨_, rfl⟩
  · left; exact ⟨_, rfl⟩
  · left; exact ⟨_, rfl⟩
  · left; exact ⟨_, rfl⟩
  · right
    refine ⟨rfl, ?_⟩
    simp [make_sock_calls_socket]

/-- Start-up ends the process or leaves it at its first `poll` with both
sockets created. -/
theorem startup_pc (argv : List String) (b : Boot) :
    (∃ o, (startup argv b).pc = PC.exited o) ∨
      ((startup argv b).pc = PC.at_poll ∧ Call.socket ∈ (startup argv b).trace) := by
  unfold startup
  simp only
  split_ifs with h0
  · left; exact ⟨_, rfl⟩
  · split
    · left; exact ⟨_, rfl⟩
    · exact after_options_pc _ _ _ _ _

theorem after_options_status (argv : List String) (b : Boot) (cc pc : Option String)
    (addr : Nat) (n : Int)
    (h : (after_options argv b cc pc addr).pc = PC.exited (Outcome.returned n)) :
    (Call.socket ∈ (after_options argv b cc pc addr).trace → n = 2) ∧
      (Call.socket ∉ (after_options argv b cc pc addr).trace → n = 1) := by
  unfold after_options at h ⊢
  simp only at h ⊢
  split_ifs at h ⊢ with h1 h2 h3 h4 h5
  · simp [ended] at h ⊢
    exact h.symm
  · simp only [ended, PC.exited.injEq, Outcome.returned.injEq] at h ⊢
    have hm : (parse_port b.long_bits b.errno (argv.getD (b.optind + 0) "")).ret = -1 := by
      have := parse_port_ret b.long_bits b.errno (argv.getD (b.optind + 0) "")
      omega
    rw [parse_port_rejects _ _ _ hm]
    simp
    exact h.symm
  · simp only [ended, PC.exited.injEq, Outcome.returned.injEq] at h ⊢
    have hne : (parse_port b.long_bits b.errno (argv.getD (b.optind + 0) "")).ret ≠ -1 := by
      omega
    obtain ⟨-, -, ho⟩ := parse_port_accepts _ _ _ hne
    have hm : (parse_port b.long_bits
        (parse_port b.long_bits b.errno (argv.getD (b.optind + 0) "")).errno
        (argv.getD (b.optind + 1) "")).ret = -1 := by
      have := parse_port_ret b.long_bits
        (parse_port b.long_bits b.errno (argv.getD (b.optind + 0) "")).errno
        (argv.getD (b.optind + 1) "")
      omega
    rw [ho, parse_port_rejects _ _ _ hm]
    simp
    exact h.symm
  · simp only [ended, PC.exited.injEq, Outcome.returned.injEq] at h ⊢
    simp [make_sock_calls_socket]
    exact h.symm
  · simp only [ended, PC.exited.injEq, Outcome.returned.injEq] at h ⊢
    simp [make_sock_calls_socket]
    exact h.symm

/-- Statuses of the returns of the start-up phase. -/
theorem startup_status (argv : List String) (b : Boot) (n : Int)
    (h : (startup argv b).pc = PC.exited (Outcome.returned n)) :
    (Call.socket ∈ (startup argv b).trace → n = 2) ∧
      (Call.socket ∉ (startup argv b).trace →
        n = 1 ∨ (n = 0 ∧ (startup argv b).trace = [Call.usage])) := by
  by_cases h0 : (argv.length : Int) = 1
  · have hs : startup argv b = ended (Outcome.returned 0) none none b.fds [Call.usage] := by
      unfold startup
      simp only [h0, if_true]
    rw [hs] at h ⊢
    simp [ended] at h ⊢
    right; exact h.symm
  · cases hopt : parse_options b.inet_aton b.opts (default_commands b).1
        (default_commands b).2 INADDR_ANY with
    | stop o out =>
      have hs : startup argv b =
          ended o (default_commands b).1 (default_commands b).2 b.fds out := by
        unfold startup
        simp only [h0, if_false, hopt]
      rw [hs] at h ⊢
      simp only [ended, PC.exited.injEq] at h
      subst h
      rcases parse_options_stop _ _ _ _ _ _ _ hopt with ⟨h1, h2⟩ | ⟨h1, h2⟩
      · subst h1 h2
        simp [ended]
      · subst h1
        simp [ended, h2]
    | parsed cc pc a =>
      rw [startup_parsed argv b cc pc a hopt h0] at h ⊢
      have := after_options_status _ _ _ _ _ n h
      exact ⟨this.1, fun hh => Or.inl (this.2 hh)⟩

/-- Statuses of the returns of `main`, by whether a socket call was made. -/
theorem main_status (argv : List String) (b : Boot) (script : List SysRet) (n : Int)
    (h : (main argv b script).pc = PC.exited (Outcome.returned n)) :
    (Call.socket ∈ (main argv b script).trace → n = 2) ∧
      (Call.socket ∉ (main argv b script).trace →
        n = 1 ∨ (n = 0 ∧ (main argv b script).trace = [Call.usage])) := by
  unfold main at h ⊢
  rcases startup_pc argv b with ⟨o, ho⟩ | ⟨hp, hs⟩
  · rw [run_exited _ _ ho] at h ⊢
    exact startup_status argv b n h
  · have hin := run_trace (startup argv b) script Call.socket hs
    rcases run_status _ _ _ h with h1 | h1
    · rw [hp] at h1
      simp at h1
    · exact ⟨fun _ => h1, fun hn => absurd hin hn⟩

/-- A failing system call of `make_sock` makes it return -1, which `main`
answers by returning 2. -/
theorem make_sock_fails (name : String) (addr : Nat) (port : Int) (k : SockRets)
    (fds : FdTable) (h : k.socket_r < 0 ∨ k.bind_r < 0 ∨ k.listen_r < 0) :
    (make_sock name addr port k fds).ret = -1 := by
  unfold make_sock
  split_ifs with h1 h2 h3
  · rfl
  · rfl
  · rfl
  · omega

/-- A `poll` failure other than `EINTR` ends `main` with status 2. -/
theorem poll_failure_fatal (s : State) (r : SysRet) (hpc : s.pc = PC.at_poll)
    (hr : r.ret < 0) (he : r.errno ≠ EINTR) :
    (step s r).pc = PC.exited (Outcome.returned 2) ∧
      (step s r).trace = s.trace ++ [Call.poll, Call.perror "error polling"] := by
  simp [step, hpc, step_poll, hr, he, State.emit]

/-- An `accept4` failure that is neither `EAGAIN` nor transient, after which
`perror` leaves `errno` as it was, ends `main` with status 2. -/
theorem accept_failure_fatal (s : State) (i : Nat) (r p : SysRet)
    (hpc : s.pc = PC.at_accept i) (hr : r.ret < 0) (he : r.errno ≠ EAGAIN)
    (ht : transient r.errno = false) (hp : p.errno = r.errno) :
    (run s [r, p]).pc = PC.exited (Outcome.returned 2) ∧
      (run s [r, p]).trace = s.trace ++ [Call.accept4 (s.poll_fd i),
        Call.perror "error accepting", Call.perror "error accepting"] := by
  have ht2 : transient p.errno = false := by rw [hp]; exact ht
  simp [run, step, hpc, step_accept, step_perror, hr, he, ht2, State.emit]

/-- A `fork` failure ends `main` with status 2. -/
theorem fork_failure_fatal (s : State) (i : Nat) (c : Int) (r : SysRet)
    (hpc : s.pc = PC.at_fork i c) (hr : r.ret < 0) :
    (step s r).pc = PC.exited (Outcome.returned 2) ∧
      (step s r).trace = s.trace ++ [Call.fork, Call.perror "error forking"] := by
  simp [step, hpc, step_fork, hr, State.emit]

theorem parse_options_cons (f : String → Option Nat) (c : Int) (optarg : String)
    (rest : List (Int × String)) (cc pc : Option String) (addr : Nat) :
    parse_options f ((c, optarg) :: rest) cc pc addr =
      if c = OPT_h then OptResult.stop (Outcome.returned 0) [Call.usage]
      else if c = OPT_c then parse_options f rest (some optarg) pc addr
      else if c = OPT_p then parse_options f rest cc (some optarg) addr
      else if c = OPT_a then
        match f optarg with
        | none => OptResult.stop (Outcome.returned 1) [Call.eprintf "invalid address: %s" optarg]
        | some a => parse_options f rest cc pc a
      else if c = OPT_unknown then OptResult.stop (Outcome.returned 1) []
      else OptResult.stop Outcome.aborted [Call.abort] := by
  rw [parse_options]

/-- The loop passes over the options before the first it stops at. -/
theorem parse_options_passed (f : String → Option Nat) (before rest : List (Int × String))
    (h : ∀ o ∈ before, passed_option f o = true) (cc pc : Option String) (a : Nat) :
    ∃ cc1 pc1 a1, parse_options f (before ++ rest) cc pc a = parse_options f rest cc1 pc1 a1 := by
  induction before generalizing cc pc a with
  | nil => exact ⟨cc, pc, a, rfl⟩
  | cons o more ih =>
    obtain ⟨c, optarg⟩ := o
    have ho := h (c, optarg) (by simp)
    have hmore : ∀ o ∈ more, passed_option f o = true := fun o hm => h o (by simp [hm])
    simp only [passed_option, Bool.or_eq_true, Bool.and_eq_true, decide_eq_true_eq] at ho
    rw [List.cons_append, parse_options_cons]
    rcases ho with (ho | ho) | ⟨ho, hv⟩
    · subst ho
      simp only [show ¬ OPT_c = OPT_h by decide, if_false, if_true]
      exact ih hmore _ _ _
    · subst ho
      simp only [show ¬ OPT_p = OPT_h by decide, show ¬ OPT_p = OPT_c by decide, if_false,
        if_true]
      exact ih hmore _ _ _
    · subst ho
      simp only [show ¬ OPT_a = OPT_h by decide, show ¬ OPT_a = OPT_c by decide,
        show ¬ OPT_a = OPT_p by decide, if_false, if_true]
      obtain ⟨v, hv2⟩ := Option.isSome_iff_exists.mp hv
      rw [hv2]
      exact ih hmore _ _ _

theorem startup_stop (argv : List String) (b : Boot) (o : Outcome) (out : List Call)
    (h0 : (argv.length : Int) ≠ 1)
    (hopt : parse_options b.inet_aton b.opts (default_commands b).1 (default_commands b).2
      INADDR_ANY = OptResult.stop o out) :
    startup argv b = ended o (default_commands b).1 (default_commands b).2 b.fds out := by
  unfold startup
  simp only [h0, if_false, hopt]

/-- Every configuration or argument failure makes start-up end with status 1. -/
theorem config_failure_returns (argv : List String) (b : Boot)
    (h0 : (argv.length : Int) ≠ 1) (h : ConfigFailure argv b) :
    (startup argv b).pc = PC.exited (Outcome.returned 1) := by
  cases h with
  | bad_address before after a hopts hbefore hbad =>
    obtain ⟨cc1, pc1, a1, he⟩ := parse_options_passed b.inet_aton before ((OPT_a, a) :: after)
      hbefore (default_commands b).1 (default_commands b).2 INADDR_ANY
    have hstop : parse_options b.inet_aton b.opts (default_commands b).1
        (default_commands b).2 INADDR_ANY =
        OptResult.stop (Outcome.returned 1) [Call.eprintf "invalid address: %s" a] := by
      rw [hopts, he, parse_options_cons]
      simp only [show ¬ OPT_a = OPT_h by decide, show ¬ OPT_a = OPT_c by decide,
        show ¬ OPT_a = OPT_p by decide, if_false, if_true, hbad]
    rw [startup_stop argv b _ _ h0 hstop]
    rfl
  | unknown_option before after x hopts hbefore =>
    obtain ⟨cc1, pc1, a1, he⟩ := parse_options_passed b.inet_aton before
      ((OPT_unknown, x) :: after) hbefore (default_commands b).1 (default_commands b).2
      INADDR_ANY
    have hstop : parse_options b.inet_aton b.opts (default_commands b).1
        (default_commands b).2 INADDR_ANY = OptResult.stop (Outcome.returned 1) [] := by
      rw [hopts, he, parse_options_cons]
      simp only [show ¬ OPT_unknown = OPT_h by decide, show ¬ OPT_unknown = OPT_c by decide,
        show ¬ OPT_unknown = OPT_p by decide, show ¬ OPT_unknown = OPT_a by decide, if_false,
        if_true]
    rw [startup_stop argv b _ _ h0 hstop]
    rfl
  | missing cc pc addr hopt hmiss =>
    rw [startup_parsed argv b cc pc addr hopt h0]
    unfold after_options
    simp only [hmiss, if_true]
    rfl
  | bad_port cc pc addr hopt hargs hbad =>
    exact (startup_bad_port argv b cc pc addr hopt hargs hbad).1

/-- Every resource-setup failure makes start-up end with status 2. -/
theorem setup_failure_returns (argv : List String) (b : Boot) (h : setup_failure argv b) :
    (startup argv b).pc = PC.exited (Outcome.returned 2) := by
  obtain ⟨cc, pc, addr, hopt, hargs, hp0, hp1, hfail⟩ := h
  rw [startup_parsed argv b (some cc) (some pc) addr hopt (by omega)]
  obtain ⟨he, he1, -⟩ := parse_port_accepts _ _ _ hp0
  have hr0 := parse_port_ret b.long_bits b.errno (argv.getD b.optind "")
  have hr1 := parse_port_ret b.long_bits b.errno (argv.getD (b.optind + 1) "")
  unfold after_options
  simp only [Nat.add_zero, he1]
  rw [he] at hp0 hp1 hr0 hr1 ⊢
  have hmiss : ¬ ((argv.length : Int) - b.optind < 2 ∨ some cc = none ∨ some pc = none) := by
    simp only [not_or]
    exact ⟨by omega, by simp, by simp⟩
  have h0 : ¬ (parse_port b.long_bits 0 (argv.getD b.optind "")).ret < 0 := by omega
  have h1 : ¬ (parse_port b.long_bits 0 (argv.getD (b.optind + 1) "")).ret < 0 := by omega
  simp only [hmiss, h0, h1, if_false]
  split_ifs with h2 h3
  · rfl
  · rfl
  · exfalso
    simp only [SockRets.failed, Bool.or_eq_true, decide_eq_true_eq] at hfail
    rcases hfail with hf | hf
    · have := make_sock_fails "copy_socket" addr
        (parse_port b.long_bits 0 (argv.getD b.optind "")).ret b.copy_sock b.fds
        (by rcases hf with (hf | hf) | hf
            · exact Or.inl hf
            · exact Or.inr (Or.inl hf)
            · exact Or.inr (Or.inr hf))
      omega
    · have := make_sock_fails "paste_socket" addr
        (parse_port b.long_bits 0 (argv.getD (b.optind + 1) "")).ret b.paste_sock
        (make_sock "copy_socket" addr (parse_port b.long_bits 0 (argv.getD b.optind "")).ret
          b.copy_sock b.fds).fds
        (by rcases hf with (hf | hf) | hf
            · exact Or.inl hf
            · exact Or.inr (Or.inl hf)
            · exact Or.inr (Or.inr hf))
      omega

theorem main_append (argv : List String) (b : Boot) (script more : List SysRet) :
    main argv b (script ++ more) = run (main argv b script) more := by
  unfold main
  exact run_append _ _ _

/-- C3 (amended): every configuration or argument failure (bad address,
unknown option, missing arguments or command, bad port) makes `main` return 1;
every resource-setup failure (a system call of `make_sock` failing for either
endpoint) makes `main` return 2; and every runtime failure (`poll` failing
with an errno other than `EINTR`; `accept4` failing with an errno that is
neither `EAGAIN` nor transient and that the diagnostic output leaves in
`errno`; `fork` failing) makes `main` return 2 as well. Whenever `main`
returns, its status is 0, 1 or 2: it is 2 exactly when socket creation had
begun, and 0 only for the help exits, whose whole trace is the usage text.
The configuration status differs from the other two, which are the same
number. -/
theorem main_exit_status (argv : List String) (b : Boot) (script : List SysRet) :
    ((argv.length : Int) ≠ 1 → ConfigFailure argv b →
      (main argv b script).pc = PC.exited (Outcome.returned 1)) ∧
    (setup_failure argv b → (main argv b script).pc = PC.exited (Outcome.returned 2)) ∧
    (∀ r : SysRet, (main argv b script).pc = PC.at_poll → r.ret < 0 → r.errno ≠ EINTR →
      (main argv b (script ++ [r])).pc = PC.exited (Outcome.returned 2)) ∧
    (∀ (i : Nat) (r p : SysRet), (main argv b script).pc = PC.at_accept i → r.ret < 0 →
      r.errno ≠ EAGAIN → transient r.errno = false → p.errno = r.errno →
      (main argv b (script ++ [r, p])).pc = PC.exited (Outcome.returned 2)) ∧
    (∀ (i : Nat) (c : Int) (r : SysRet), (main argv b script).pc = PC.at_fork i c →
      r.ret < 0 → (main argv b (script ++ [r])).pc = PC.exited (Outcome.returned 2)) ∧
    (∀ n : Int, (main argv b script).pc = PC.exited (Outcome.returned n) →
      (n = 0 ∨ n = 1 ∨ n = 2) ∧
      (Call.socket ∈ (main argv b script).trace ↔ n = 2) ∧
      (n = 0 → (main argv b script).trace = [Call.usage])) := by
  refine ⟨?_, ?_, ?_, ?_, ?_, ?_⟩
  · intro h0 h
    have hs := config_failure_returns argv b h0 h
    unfold main
    rw [run_exited _ _ hs]
    exact hs
  · intro h
    have hs := setup_failure_returns argv b h
    unfold main
    rw [run_exited _ _ hs]
    exact hs
  · intro r hpc hr he
    rw [main_append]
    exact (poll_failure_fatal _ r hpc hr he).1
  · intro i r p hpc hr he ht hp
    rw [main_append]
    exact (accept_failure_fatal _ i r p hpc hr he ht hp).1
  · intro i c r hpc hr
    rw [main_append]
    exact (fork_failure_fatal _ i c r hpc hr).1
  · intro n h
    obtain ⟨h1, h2⟩ := main_status argv b script n h
    by_cases hs : Call.socket ∈ (main argv b script).trace
    · have hn := h1 hs
      subst hn
      simp [hs]
    · rcases h2 hs with hn | ⟨hn, ht⟩
      · subst hn
        simp [hs]
      · subst hn
        simp [hs, ht]

set_option maxRecDepth 8000 in
theorem main_exit_status_witness :
    (main ["rclip", "-c", "cat", "-a", "nowhere", "9001", "9002"] boot_bad_address []).pc =
        PC.exited (Outcome.returned 1) ∧
      (main ["rclip", "9001", "99999"] boot_x11 []).pc = PC.exited (Outcome.returned 1) ∧
      (main ["rclip", "9001", "9002"] boot_bind_fails []).pc =
        PC.exited (Outcome.returned 2) ∧
      (main ["rclip", "9001", "9002"] boot_x11 ([] ++ [⟨-1, 12, 0, 0⟩])).pc =
        PC.exited (Outcome.returned 2) ∧
      (main ["rclip", "9001", "9002"] boot_x11
        ([⟨1, 0, 1, 0⟩] ++ [⟨-1, 24, 0, 0⟩, ⟨0, 24, 0, 0⟩])).pc =
        PC.exited (Outcome.returned 2) ∧
      (main ["rclip", "9001", "9002"] boot_x11
        ([⟨1, 0, 1, 0⟩, ⟨6, 0, 0, 0⟩] ++ [⟨-1, 12, 0, 0⟩])).pc =
        PC.exited (Outcome.returned 2) ∧
      (Call.socket ∈ (main ["rclip", "9001", "9002"] boot_bind_fails []).trace ↔
        (2 : Int) = 2) :=
  ⟨(main_exit_status ["rclip", "-c", "cat", "-a", "nowhere", "9001", "9002"]
      boot_bad_address []).1 (by decide)
      (ConfigFailure.bad_address [(OPT_c, "cat")] [] "nowhere" rfl (by decide) (by decide)),
    (main_exit_status ["rclip", "9001", "99999"] boot_x11 []).1 (by decide)
      (ConfigFailure.bad_port (some "xclip -selection clipboard")
        (some "xclip -out -selection clipboard") 0 (by decide) (by decide)
        (Or.inr (by decide))),
    (main_exit_status ["rclip", "9001", "9002"] boot_bind_fails []).2.1
      ⟨"xclip -selection clipboard", "xclip -out -selection clipboard", 0,
        by decide, by decide, by decide, by decide, Or.inl (by decide)⟩,
    (main_exit_status ["rclip", "9001", "9002"] boot_x11 []).2.2.1
      ⟨-1, 12, 0, 0⟩ (by decide) (by decide) (by decide),
    (main_exit_status ["rclip", "9001", "9002"] boot_x11 [⟨1, 0, 1, 0⟩]).2.2.2.1
      0 ⟨-1, 24, 0, 0⟩ ⟨0, 24, 0, 0⟩ (by decide) (by decide) (by decide) (by decide) rfl,
    (main_exit_status ["rclip", "9001", "9002"] boot_x11
      [⟨1, 0, 1, 0⟩, ⟨6, 0, 0, 0⟩]).2.2.2.2.1
      0 6 ⟨-1, 12, 0, 0⟩ (by decide) (by decide),
    ((main_exit_status ["rclip", "9001", "9002"] boot_bind_fails []).2.2.2.2.2
      2 (by decide)).2.1⟩

/-- C3 (counterexample): a resource-setup failure (`bind` fails for the copy
socket) and a runtime failure (`poll` fails with `ENOMEM`) make `main` return
the same status, 2. -/
theorem setup_and_runtime_status_coincide :
    (main ["rclip", "9001", "9002"] boot_bind_fails []).pc = PC.exited (Outcome.returned 2) ∧
      (main ["rclip", "9001", "9002"] boot_bind_fails []).trace =
        [Call.socket, Call.bind 3 0 9001, Call.perror "error binding copy_socket"] ∧
      (main ["rclip", "9001", "9002"] boot_x11 [⟨-1, 12, 0, 0⟩]).pc =
        PC.exited (Outcome.returned 2) ∧
      (main ["rclip", "9001", "9002"] boot_x11 [⟨-1, 12, 0, 0⟩]).trace =
        [Call.socket, Call.bind 3 0 9001, Call.listen 3 4,
          Call.socket, Call.bind 4 0 9002, Call.listen 4 4,
          Call.open_devnull, Call.poll, Call.perror "error polling"] := by
  decide

/-! ## C4: how the child is wired -/

/-- C4 (code defect): `open("/dev/null")` fails (its result is never tested),
a connection is accepted on the copy endpoint as descriptor 5 and the child
execs the shell. The child's `dup2(-1, 1)` and `dup2(-1, 2)` fail, so at the
exec descriptor 0 refers to the connection but descriptors 1 and 2 still refer
to the standard output and error inherited from the service, not to the null
device. -/
theorem child_without_devnull :
    (main ["rclip", "9001", "9002"] boot_no_devnull
        [⟨1, 0, 1, 0⟩, ⟨5, 0, 0, 0⟩, ⟨0, 0, 0, 0⟩, ⟨0, 0, 0, 0⟩]).pc =
        PC.exited Outcome.execd ∧
      (main ["rclip", "9001", "9002"] boot_no_devnull
        [⟨1, 0, 1, 0⟩, ⟨5, 0, 0, 0⟩, ⟨0, 0, 0, 0⟩, ⟨0, 0, 0, 0⟩]).trace =
        [Call.socket, Call.bind 3 0 9001, Call.listen 3 4,
          Call.socket, Call.bind 4 0 9002, Call.listen 4 4,
          Call.open_devnull, Call.poll, Call.accept4 3, Call.fork,
          Call.shutdown 5 SHUT_WR, Call.dup2 5 0, Call.dup2 (-1) 1, Call.dup2 (-1) 2,
          Call.execl "/bin/sh" [some "sh", some "-c", some "xclip -selection clipboard"]] ∧
      (main ["rclip", "9001", "9002"] boot_no_devnull
        [⟨1, 0, 1, 0⟩, ⟨5, 0, 0, 0⟩, ⟨0, 0, 0, 0⟩, ⟨0, 0, 0, 0⟩]).fds 0 =
        some ⟨File.conn 0 5, false⟩ ∧
      (main ["rclip", "9001", "9002"] boot_no_devnull
        [⟨1, 0, 1, 0⟩, ⟨5, 0, 0, 0⟩, ⟨0, 0, 0, 0⟩, ⟨0, 0, 0, 0⟩]).fds 1 =
        some ⟨File.inherited 1, false⟩ ∧
      (main ["rclip", "9001", "9002"] boot_no_devnull
        [⟨1, 0, 1, 0⟩, ⟨5, 0, 0, 0⟩, ⟨0, 0, 0, 0⟩, ⟨0, 0, 0, 0⟩]).fds 2 =
        some ⟨File.inherited 2, false⟩ := by
  decide

theorem get_set (t : FdTable) (fd x : Int) (e : Option Entry) (hfd : 0 ≤ fd) :
    (t.set fd e).get x = if x = fd then e else t.get x := by
  unfold FdTable.get FdTable.set
  by_cases hx : x = fd
  · subst hx
    have : ¬ x < 0 := by omega
    simp [this]
  · simp [hx]

theorem dup2_open (t : FdTable) (oldfd newfd : Int) (e : Entry)
    (h : t.get oldfd = some e) (hne : oldfd ≠ newfd) (hnew : 0 ≤ newfd) :
    t.dup2 oldfd newfd = t.set newfd (some ⟨e.file, false⟩) := by
  unfold FdTable.dup2
  have : ¬ newfd < 0 := by omega
  simp [h, hne, this]

/-- The child with the null device open: for the copy endpoint descriptor 0
refers to the connection and 1 and 2 to the null device at the exec, for the
paste endpoint descriptor 1 refers to the connection and 0 and 2 to the null
device, given that the connection and the null device are open descriptors
other than 0, 1 and 2. -/
theorem child_wiring (s : State) (i : Nat) (c : Int) (f : File) (x y : Bool) (r e : SysRet)
    (hpc : s.pc = PC.at_fork i c) (hi : i = 0 ∨ i = 1)
    (hc : s.fds.get c = some ⟨f, x⟩) (hn : s.fds.get s.devnull_fd = some ⟨File.null, y⟩)
    (hc3 : 3 ≤ c) (hn3 : 3 ≤ s.devnull_fd) (hr : r.ret = 0) (he : 0 ≤ e.ret) :
    (run s [r, e]).pc = PC.exited Outcome.execd ∧
      (run s [r, e]).trace = s.trace ++
        (if i = 0 then
          [Call.fork, Call.shutdown c SHUT_WR, Call.dup2 c 0, Call.dup2 s.devnull_fd 1,
            Call.dup2 s.devnull_fd 2,
            Call.execl "/bin/sh" [some "sh", some "-c", s.copy_command]]
        else
          [Call.fork, Call.shutdown c SHUT_RD, Call.dup2 s.devnull_fd 0, Call.dup2 c 1,
            Call.dup2 s.devnull_fd 2,
            Call.execl "/bin/sh" [some "sh", some "-c", s.paste_command]]) ∧
      (run s [r, e]).fds 0 = some ⟨if i = 0 then f else File.null, false⟩ ∧
      (run s [r, e]).fds 1 = some ⟨if i = 0 then File.null else f, false⟩ ∧
      (run s [r, e]).fds 2 = some ⟨File.null, false⟩ := by
  have hr1 : ¬ r.ret < 0 := by omega
  have he1 : ¬ e.ret < 0 := by omega
  have hc0 : c ≠ 0 := by omega
  have hc1 : c ≠ 1 := by omega
  have hd0 : s.devnull_fd ≠ 0 := by omega
  have hd1 : s.devnull_fd ≠ 1 := by omega
  have hd2 : s.devnull_fd ≠ 2 := by omega
  rcases hi with hi | hi
  · subst hi
    have e1 := dup2_open s.fds c 0 _ hc hc0 (by omega)
    have g1 : (s.fds.set 0 (some ⟨f, false⟩)).get s.devnull_fd = some ⟨File.null, y⟩ := by
      rw [get_set _ _ _ _ (by omega)]; simp [hd0, hn]
    have e2 := dup2_open _ s.devnull_fd 1 _ g1 hd1 (by omega)
    have g2 : ((s.fds.set 0 (some ⟨f, false⟩)).set 1 (some ⟨File.null, false⟩)).get
        s.devnull_fd = some ⟨File.null, y⟩ := by
      rw [get_set _ _ _ _ (by omega)]; simp [hd1, g1]
    have e3 := dup2_open _ s.devnull_fd 2 _ g2 hd2 (by omega)
    simp only [run, step, hpc, step_fork, hr, child, State.emit, step_execl, he1, e1, e2, e3]
    simp [FdTable.exec, FdTable.get, FdTable.set]
  · subst hi
    have e1 := dup2_open s.fds s.devnull_fd 0 _ hn hd0 (by omega)
    have g1 : (s.fds.set 0 (some ⟨File.null, false⟩)).get c = some ⟨f, x⟩ := by
      rw [get_set _ _ _ _ (by omega)]; simp [hc0, hc]
    have e2 := dup2_open _ c 1 _ g1 hc1 (by omega)
    have g2 : ((s.fds.set 0 (some ⟨File.null, false⟩)).set 1 (some ⟨f, false⟩)).get
        s.devnull_fd = some ⟨File.null, y⟩ := by
      rw [get_set _ _ _ _ (by omega), get_set _ _ _ _ (by omega)]; simp [hd1, hd0, hn]
    have e3 := dup2_open _ s.devnull_fd 2 _ g2 hd2 (by omega)
    simp only [run, step, hpc, step_fork, hr, child, State.emit, step_execl, he1, e1, e2, e3]
    simp [FdTable.exec, FdTable.get, FdTable.set]

set_option maxRecDepth 8000 in
theorem child_wiring_example :
    (run (run first_poll [⟨1, 0, 1, 1⟩, ⟨-1, 11, 0, 0⟩, ⟨6, 0, 0, 0⟩])
        [⟨0, 0, 0, 0⟩, ⟨0, 0, 0, 0⟩]).fds 1 = some ⟨File.conn 1 6, false⟩ ∧
      (run (run first_poll [⟨1, 0, 1, 1⟩, ⟨-1, 11, 0, 0⟩, ⟨6, 0, 0, 0⟩])
        [⟨0, 0, 0, 0⟩, ⟨0, 0, 0, 0⟩]).fds 0 = some ⟨File.null, false⟩ :=
  have h := child_wiring (run first_poll [⟨1, 0, 1, 1⟩, ⟨-1, 11, 0, 0⟩, ⟨6, 0, 0, 0⟩]) 1 6
    (File.conn 1 6) true true ⟨0, 0, 0, 0⟩ ⟨0, 0, 0, 0⟩ (by decide) (by decide) (by decide)
    (by decide) (by decide) (by decide) (by decide) (by decide)
  ⟨h.2.2.2.1, h.2.2.1⟩

/-! ## C5: the accept loop -/

/-- The test of line 195 never skips an endpoint: `revents | POLLIN` is not 0. -/
theorem or_pollin_ne_zero (x : Nat) : (x ||| POLLIN) ≠ 0 := by
  intro h
  have h0 := congrArg (fun n => n.testBit 0) h
  simp [POLLIN] at h0

theorem for_from_0_eq (s : State) : for_from s 0 = { s with pc := PC.at_accept 0 } := by
  unfold for_from for_from_0
  simp [or_pollin_ne_zero]

theorem for_from_1_eq (s : State) : for_from s 1 = { s with pc := PC.at_accept 1 } := by
  unfold for_from for_from_1
  simp [or_pollin_ne_zero]

theorem for_from_2_eq (s : State) : for_from s 2 = for_end s := by
  unfold for_from
  simp

theorem for_from_succ_pc (s : State) (i : Nat) :
    (for_from s (i + 1)).pc = if i = 0 then PC.at_accept 1 else PC.at_poll := by
  unfold for_from for_from_1 for_end
  by_cases hi : i = 0
  · simp [hi, or_pollin_ne_zero]
  · simp [hi]

theorem transient_ne_eagain (e : Int) (h : transient e = true) : e ≠ EAGAIN := by
  intro he
  subst he
  revert h
  decide

/-- One turn of the accept loop in the parent. -/
theorem drain_turn (s : State) (i : Nat) (p : Pending) (hpc : s.pc = PC.at_accept i)
    (hok : p.ok = true) :
    (run s (drain_script [p])).pc = PC.at_accept i ∧
      (run s (drain_script [p])).trace = s.trace ++ drain_calls (s.poll_fd i) [p] ∧
      (run s (drain_script [p])).poll_fd i = s.poll_fd i := by
  cases p with
  | conn a f =>
    simp only [Pending.ok, Bool.and_eq_true, decide_eq_true_eq] at hok
    have ha : ¬ a.ret < 0 := by omega
    have hf : ¬ f.ret < 0 := by omega
    have hf0 : ¬ f.ret = 0 := by omega
    simp [drain_script, drain_calls, run, step, hpc, step_accept, step_fork, ha, hf, hf0,
      State.emit, State.poll_fd]
  | failed a q =>
    simp only [Pending.ok, Bool.and_eq_true, decide_eq_true_eq] at hok
    obtain ⟨⟨h1, h2⟩, h3⟩ := hok
    have hne := transient_ne_eagain _ h2
    have h4 : transient q.errno = true := by rw [h3]; exact h2
    simp [drain_script, drain_calls, run, step, hpc, step_accept, step_perror, h1, h4, hne,
      State.emit, State.poll_fd]

theorem drain_script_cons (p : Pending) (ps : List Pending) :
    drain_script (p :: ps) = drain_script [p] ++ drain_script ps := by
  cases p <;> simp [drain_script]

theorem drain_calls_cons (fd : Int) (p : Pending) (ps : List Pending) :
    drain_calls fd (p :: ps) = drain_calls fd [p] ++ drain_calls fd ps := by
  cases p <;> simp [drain_calls]

/-- Where the contract of the accept loop does hold: as long as the `perror`
of line 205 leaves `errno` as `accept4` set it. The loop on endpoint `i`, run
against any sequence of accepted connections (each with a successful `fork`
seen by the parent) and such transient failures, followed by an `accept4` that
fails with `EAGAIN`, makes exactly these calls in this order: for each
connection `accept4`, `fork`, `close` of the accepted descriptor; for each
transient failure `accept4` and the diagnostic; then the last `accept4`, after
which the loop is left. With no connection and no failure the only call is the
one `accept4`: no `fork`, no `close`, no output. -/
theorem drain_dispatches (s : State) (i : Nat) (ps : List Pending) (last : SysRet)
    (hpc : s.pc = PC.at_accept i) (hok : ∀ p ∈ ps, p.ok = true)
    (hl : last.ret < 0) (he : last.errno = EAGAIN) :
    (run s (drain_script ps ++ [last])).trace =
        s.trace ++ drain_calls (s.poll_fd i) ps ++ [Call.accept4 (s.poll_fd i)] ∧
      (run s (drain_script ps ++ [last])).pc =
        (if i = 0 then PC.at_accept 1 else PC.at_poll) ∧
      (run s [last]).trace = s.trace ++ [Call.accept4 (s.poll_fd i)] := by
  have hbase : ∀ t : State, t.pc = PC.at_accept i →
      (run t [last]).trace = t.trace ++ [Call.accept4 (t.poll_fd i)] ∧
      (run t [last]).pc = (if i = 0 then PC.at_accept 1 else PC.at_poll) := by
    intro t ht
    simp only [run, step, ht, step_accept, hl, he, if_true]
    rw [for_from_trace, for_from_succ_pc]
    simp [State.emit]
  refine ⟨?_, ?_, (hbase s hpc).1⟩
  · induction ps generalizing s with
    | nil => simpa [drain_script, drain_calls] using (hbase s hpc).1
    | cons p ps ih =>
      obtain ⟨h1, h2, h3⟩ := drain_turn s i p hpc (hok p (by simp))
      have := ih (run s (drain_script [p])) h1 (fun q hq => hok q (by simp [hq]))
      rw [drain_script_cons, List.append_assoc, run_append, this, h2, h3,
        drain_calls_cons (s.poll_fd i) p ps]
      simp
  · induction ps generalizing s with
    | nil => simpa [drain_script] using (hbase s hpc).2
    | cons p ps ih =>
      obtain ⟨h1, h2, h3⟩ := drain_turn s i p hpc (hok p (by simp))
      have := ih (run s (drain_script [p])) h1 (fun q hq => hok q (by simp [hq]))
      rw [drain_script_cons, List.append_assoc, run_append, this]

theorem drain_dispatches_example :
    (run (run first_poll [⟨1, 0, 1, 0⟩])
        (drain_script [Pending.conn ⟨6, 0, 0, 0⟩ ⟨77, 0, 0, 0⟩,
          Pending.failed ⟨-1, 100, 0, 0⟩ ⟨0, 100, 0, 0⟩,
          Pending.conn ⟨6, 0, 0, 0⟩ ⟨78, 0, 0, 0⟩] ++ [⟨-1, 11, 0, 0⟩])).trace =
        first_poll.trace ++
          [Call.poll, Call.accept4 3, Call.fork, Call.close 6,
            Call.accept4 3, Call.perror "error accepting",
            Call.accept4 3, Call.fork, Call.close 6, Call.accept4 3] := by
  have h := (drain_dispatches (run first_poll [⟨1, 0, 1, 0⟩]) 0
    [Pending.conn ⟨6, 0, 0, 0⟩ ⟨77, 0, 0, 0⟩, Pending.failed ⟨-1, 100, 0, 0⟩ ⟨0, 100, 0, 0⟩,
      Pending.conn ⟨6, 0, 0, 0⟩ ⟨78, 0, 0, 0⟩] ⟨-1, 11, 0, 0⟩
    (by decide) (by decide) (by decide) (by decide)).1
  rw [h]
  decide

set_option maxRecDepth 8000 in
/-- C5 (code defect): the copy endpoint is ready; the first `accept4` fails
with the transient `ENETDOWN`, a connection is pending behind it, and the
`perror` of line 205 leaves `errno = EINVAL` (as the C library may: it does
when the standard error stream is a write-only descriptor). The `switch` of
line 206 reads `errno` after `perror`, finds no whitelisted value, and `main`
returns 2: the loop does not go on to the pending connection, for which no
`accept4` and no `fork` is made. -/
theorem drain_ends_at_transient_error :
    transient ENETDOWN = true ∧
      (main ["rclip", "9001", "9002"] boot_x11
        [⟨1, 0, 1, 0⟩, ⟨-1, ENETDOWN, 0, 0⟩, ⟨0, 22, 0, 0⟩, ⟨6, 0, 0, 0⟩, ⟨77, 0, 0, 0⟩,
          ⟨-1, EAGAIN, 0, 0⟩]).pc = PC.exited (Outcome.returned 2) ∧
      (main ["rclip", "9001", "9002"] boot_x11
        [⟨1, 0, 1, 0⟩, ⟨-1, ENETDOWN, 0, 0⟩, ⟨0, 22, 0, 0⟩, ⟨6, 0, 0, 0⟩, ⟨77, 0, 0, 0⟩,
          ⟨-1, EAGAIN, 0, 0⟩]).trace =
        [Call.socket, Call.bind 3 0 9001, Call.listen 3 4,
          Call.socket, Call.bind 4 0 9002, Call.listen 4 4,
          Call.open_devnull, Call.poll, Call.accept4 3,
          Call.perror "error accepting", Call.perror "error accepting"] ∧
      (main ["rclip", "9001", "9002"] boot_x11
        [⟨1, 0, 1, 0⟩, ⟨-1, ENETDOWN, 0, 0⟩, ⟨0, ENETDOWN, 0, 0⟩, ⟨6, 0, 0, 0⟩, ⟨77, 0, 0, 0⟩,
          ⟨-1, EAGAIN, 0, 0⟩]).trace =
        [Call.socket, Call.bind 3 0 9001, Call.listen 3 4,
          Call.socket, Call.bind 4 0 9002, Call.listen 4 4,
          Call.open_devnull, Call.poll, Call.accept4 3,
          Call.perror "error accepting", Call.accept4 3, Call.fork, Call.close 6,
          Call.accept4 3] := by
  decide

/-! ## C6: the parent's descriptors -/

theorem set_close (f0 : FdTable) (c : Int) (e : Option Entry) (hc : 0 ≤ c)
    (h0 : f0 c = none) : (f0.set c e).close c = f0 := by
  funext x
  have : ¬ c < 0 := by omega
  unfold FdTable.close FdTable.set
  simp only [this, if_false]
  by_cases hx : x = c
  · simp [hx, h0]
  · simp [hx]

theorem for_from_handles (f0 : FdTable) (s : State) (i : Nat) (h : s.fds = f0) :
    handles_inv f0 (for_from s i) := by
  unfold for_from for_from_0 for_from_1 for_end
  split_ifs <;> simp [handles_inv, h]

theorem step_handles (f0 : FdTable) (s : State) (r : SysRet) (h : handles_inv f0 s)
    (hf : fresh_accepts s [r] = true) : handles_inv f0 (step s r) := by
  unfold step
  split
  · rename_i hpc
    simp only [handles_inv, hpc] at h
    unfold step_poll
    simp only
    split_ifs
    · simp [handles_inv, State.emit, hpc, h]
    · simp [handles_inv]
    · exact for_from_handles f0 _ 0 h
  · rename_i i hpc
    simp only [handles_inv, hpc] at h
    simp only [fresh_accepts, hpc, Bool.and_true, Bool.or_eq_true, decide_eq_true_eq] at hf
    unfold step_accept
    simp only
    split_ifs with h1 h2
    · exact for_from_handles f0 _ (i + 1) h
    · simp [handles_inv, State.emit, h]
    · have hfree : s.fds r.ret = none := by
        rcases hf with hf | hf
        · exact absurd hf h1
        · simpa [FdTable.get, h1] using hf
      simp only [handles_inv, State.emit]
      refine ⟨by omega, ?_, _, by rw [h]⟩
      rw [← h]; exact hfree
  · rename_i i hpc
    simp only [handles_inv, hpc] at h
    unfold step_perror
    simp only
    split_ifs
    · simp [handles_inv, State.emit, h]
    · simp [handles_inv]
  · rename_i i c hpc
    simp only [handles_inv, hpc] at h
    obtain ⟨hc, h0, e, he⟩ := h
    unfold step_fork child
    simp only
    split_ifs
    · simp [handles_inv]
    · simp [handles_inv]
    · simp [handles_inv]
    · simp [handles_inv]
    · simp only [handles_inv, State.emit, he]
      exact set_close f0 c (some e) hc h0
  · unfold step_execl
    split_ifs <;> simp [handles_inv]
  · rename_i hpc
    simp [handles_inv, hpc]

theorem fresh_accepts_cons (s : State) (r : SysRet) (rs : List SysRet)
    (h : fresh_accepts s (r :: rs) = true) :
    fresh_accepts s [r] = true ∧ fresh_accepts (step s r) rs = true := by
  simp only [fresh_accepts, Bool.and_eq_true] at h ⊢
  exact ⟨⟨h.1, trivial⟩, h.2⟩

theorem run_handles (f0 : FdTable) (s : State) (rs : List SysRet) (h : handles_inv f0 s)
    (hf : fresh_accepts s rs = true) : handles_inv f0 (run s rs) := by
  induction rs generalizing s with
  | nil => exact h
  | cons r rs ih =>
    obtain ⟨h1, h2⟩ := fresh_accepts_cons s r rs hf
    exact ih (step s r) (step_handles f0 s r h h1) h2

/-- C6 (amended): in the parent, started at its first `poll` and run against
any script in which `accept4` yields only descriptors that are not open, the
descriptor table at every `poll` and at every `accept4` is the table of the
first `poll`; and whenever the process is about to fork for an accepted
descriptor `c`, a successful `fork` is followed at once by `close(c)`, which
restores that table before the next `accept4`, while a failed `fork` makes
`main` return 2 without any `close`, `c` still being open. -/
theorem parent_closes_connection (s0 : State) (script : List SysRet)
    (hpc : s0.pc = PC.at_poll) (hfresh : fresh_accepts s0 script = true) :
    ((run s0 script).pc = PC.at_poll → (run s0 script).fds = s0.fds) ∧
      (∀ i, (run s0 script).pc = PC.at_accept i → (run s0 script).fds = s0.fds) ∧
      (∀ i c r, (run s0 script).pc = PC.at_fork i c →
        (0 < r.ret →
          (step (run s0 script) r).trace =
            (run s0 script).trace ++ [Call.fork, Call.close c] ∧
          (step (run s0 script) r).pc = PC.at_accept i ∧
          (step (run s0 script) r).fds = s0.fds) ∧
        (r.ret < 0 →
          (step (run s0 script) r).trace =
            (run s0 script).trace ++ [Call.fork, Call.perror "error forking"] ∧
          (step (run s0 script) r).pc = PC.exited (Outcome.returned 2) ∧
          (step (run s0 script) r).fds c ≠ none)) := by
  have h0 : handles_inv s0.fds s0 := by simp [handles_inv, hpc]
  have hinv := run_handles s0.fds s0 script h0 hfresh
  refine ⟨?_, ?_, ?_⟩
  · intro h
    simpa [handles_inv, h] using hinv
  · intro i h
    simpa [handles_inv, h] using hinv
  · intro i c r h
    simp only [handles_inv, h] at hinv
    obtain ⟨hc, hn, e, he⟩ := hinv
    refine ⟨?_, ?_⟩
    · intro hr
      have h1 : ¬ r.ret < 0 := by omega
      have h2 : ¬ r.ret = 0 := by omega
      simp only [step, h, step_fork, h1, h2, if_false, State.emit, he]
      exact ⟨by simp, trivial, set_close s0.fds c (some e) hc hn⟩
    · intro hr
      simp only [step, h, step_fork, hr, if_true, State.emit, he]
      refine ⟨by simp, trivial, ?_⟩
      simp [FdTable.set]

set_option maxRecDepth 8000 in
theorem parent_closes_connection_witness :
    (run first_poll [⟨1, 0, 1, 0⟩, ⟨6, 0, 0, 0⟩, ⟨100, 0, 0, 0⟩, ⟨-1, 11, 0, 0⟩,
        ⟨-1, 11, 0, 0⟩]).pc = PC.at_poll ∧
      (run first_poll [⟨1, 0, 1, 0⟩, ⟨6, 0, 0, 0⟩, ⟨100, 0, 0, 0⟩, ⟨-1, 11, 0, 0⟩,
        ⟨-1, 11, 0, 0⟩]).fds = first_poll.fds :=
  ⟨by decide,
    (parent_closes_connection first_poll
      [⟨1, 0, 1, 0⟩, ⟨6, 0, 0, 0⟩, ⟨100, 0, 0, 0⟩, ⟨-1, 11, 0, 0⟩, ⟨-1, 11, 0, 0⟩]
      (by decide) (by decide)).1 (by decide)⟩

/-- C6 (counterexample): a connection is accepted as descriptor 6 and `fork`
fails. `main` returns 2; the calls after `accept4` are `fork` and the
diagnostic, with no `close`, and descriptor 6 is still open. -/
theorem fork_failure_skips_close :
    (main ["rclip", "9001", "9002"] boot_x11
        [⟨1, 0, 1, 0⟩, ⟨6, 0, 0, 0⟩, ⟨-1, 12, 0, 0⟩]).pc = PC.exited (Outcome.returned 2) ∧
      (main ["rclip", "9001", "9002"] boot_x11
        [⟨1, 0, 1, 0⟩, ⟨6, 0, 0, 0⟩, ⟨-1, 12, 0, 0⟩]).trace =
        [Call.socket, Call.bind 3 0 9001, Call.listen 3 4,
          Call.socket, Call.bind 4 0 9002, Call.listen 4 4,
          Call.open_devnull, Call.poll, Call.accept4 3, Call.fork,
          Call.perror "error forking"] ∧
      (main ["rclip", "9001", "9002"] boot_x11
        [⟨1, 0, 1, 0⟩, ⟨6, 0, 0, 0⟩, ⟨-1, 12, 0, 0⟩]).fds 6 = some ⟨File.conn 0 6, true⟩ := by
  decide

/-! ## C7: the command strings -/

theorem step_commands (s : State) (r : SysRet) :
    (step s r).copy_command = s.copy_command ∧ (step s r).paste_command = s.paste_command := by
  unfold step
  split
  · unfold step_poll for_from for_from_0 for_from_1 for_end
    simp only
    split_ifs <;> simp [State.emit]
  · unfold step_accept for_from for_from_0 for_from_1 for_end
    simp only
    split_ifs <;> simp [State.emit]
  · unfold step_perror
    simp only
    split_ifs <;> simp [State.emit]
  · unfold step_fork child
    simp only
    split_ifs <;> simp [State.emit]
  · unfold step_execl
    split_ifs <;> simp [State.emit]
  · exact ⟨rfl, rfl⟩

theorem run_commands (s : State) (rs : List SysRet) :
    (run s rs).copy_command = s.copy_command ∧ (run s rs).paste_command = s.paste_command := by
  induction rs generalizing s with
  | nil => exact ⟨rfl, rfl⟩
  | cons r rs ih =>
    obtain ⟨h1, h2⟩ := ih (step s r)
    obtain ⟨h3, h4⟩ := step_commands s r
    exact ⟨by rw [run_cons, h1, h3], by rw [run_cons, h2, h4]⟩

/-- A command left by the option loop is the one it started with or the
argument of a `-c` (respectively `-p`) option. -/
theorem parse_options_commands (f : String → Option Nat) (opts : List (Int × String))
    (cc pc : Option String) (a : Nat) (cc1 pc1 : Option String) (a1 : Nat)
    (h : parse_options f opts cc pc a = OptResult.parsed cc1 pc1 a1) :
    (cc1 = cc ∨ ∃ arg, (OPT_c, arg) ∈ opts ∧ cc1 = some arg) ∧
      (pc1 = pc ∨ ∃ arg, (OPT_p, arg) ∈ opts ∧ pc1 = some arg) := by
  induction opts generalizing cc pc a with
  | nil =>
    simp [parse_options] at h
    exact ⟨Or.inl h.1.symm, Or.inl h.2.1.symm⟩
  | cons o rest ih =>
    obtain ⟨c, optarg⟩ := o
    unfold parse_options at h
    have lift1 : ∀ x : Option String, (∃ arg, (OPT_c, arg) ∈ rest ∧ x = some arg) →
        ∃ arg, (OPT_c, arg) ∈ (c, optarg) :: rest ∧ x = some arg := by
      rintro x ⟨arg, h1, h2⟩
      exact ⟨arg, List.mem_cons_of_mem _ h1, h2⟩
    have lift2 : ∀ x : Option String, (∃ arg, (OPT_p, arg) ∈ rest ∧ x = some arg) →
        ∃ arg, (OPT_p, arg) ∈ (c, optarg) :: rest ∧ x = some arg := by
      rintro x ⟨arg, h1, h2⟩
      exact ⟨arg, List.mem_cons_of_mem _ h1, h2⟩
    split_ifs at h with h1 h2 h3 h4 h5
    · obtain ⟨g1, g2⟩ := ih _ _ _ h
      refine ⟨?_, g2.imp id (lift2 _)⟩
      rcases g1 with g1 | g1
      · right
        exact ⟨optarg, by simp [h2], g1⟩
      · right
        exact lift1 _ g1
    · obtain ⟨g1, g2⟩ := ih _ _ _ h
      refine ⟨g1.imp id (lift1 _), ?_⟩
      rcases g2 with g2 | g2
      · right
        exact ⟨optarg, by simp [h3], g2⟩
      · right
        exact lift2 _ g2
    · split at h
      · simp at h
      · obtain ⟨g1, g2⟩ := ih _ _ _ h
        exact ⟨g1.imp id (lift1 _), g2.imp id (lift2 _)⟩

theorem default_commands_nonempty (b : Boot) :
    (default_commands b).1 ≠ some "" ∧ (default_commands b).2 ≠ some "" := by
  unfold default_commands
  split_ifs <;> simp

theorem after_options_commands (argv : List String) (b : Boot) (cc pc : Option String)
    (addr : Nat) :
    (after_options argv b cc pc addr).copy_command = cc ∧
      (after_options argv b cc pc addr).paste_command = pc ∧
      ((after_options argv b cc pc addr).pc = PC.at_poll → cc ≠ none ∧ pc ≠ none) ∧
      (cc = none ∨ pc = none →
        (after_options argv b cc pc addr).pc = PC.exited (Outcome.returned 1) ∧
        ∀ c ∈ (after_options argv b cc pc addr).trace, c.socket_setup = false) := by
  unfold after_options
  simp only
  split_ifs with h1 h2 h3 h4 h5
  · simp [ended, Call.socket_setup]
  · simp only [not_or] at h1
    simp [ended, h1.2.1, h1.2.2]
  · simp only [not_or] at h1
    simp [ended, h1.2.1, h1.2.2]
  · simp only [not_or] at h1
    simp [ended, h1.2.1, h1.2.2]
  · simp only [not_or] at h1
    simp [ended, h1.2.1, h1.2.2]
  · simp only [not_or] at h1
    simp [h1.2.1, h1.2.2]

/-- C7 (amended): if start-up reaches the first `poll`, then at every later
moment the copy command and the paste command used by the dispatcher are
strings (not NULL), and each is non-empty unless it was given as the empty
argument of a `-c` (respectively `-p`) option; and whenever the option loop
runs to its end on a command line of more than the program name and leaves
either command NULL, `main` returns 1 and its trace holds no `socket`, `bind`
or `listen` call. -/
theorem commands_present (argv : List String) (b : Boot) (script : List SysRet) :
    ((startup argv b).pc = PC.at_poll →
      ∃ c p, (main argv b script).copy_command = some c ∧
        (main argv b script).paste_command = some p ∧
        (c = "" → (OPT_c, "") ∈ b.opts) ∧ (p = "" → (OPT_p, "") ∈ b.opts)) ∧
      (∀ cc pc addr, (argv.length : Int) ≠ 1 →
        parse_options b.inet_aton b.opts (default_commands b).1 (default_commands b).2
          INADDR_ANY = OptResult.parsed cc pc addr →
        (cc = none ∨ pc = none) →
        (main argv b script).pc = PC.exited (Outcome.returned 1) ∧
        ∀ c ∈ (main argv b script).trace, c.socket_setup = false) := by
  refine ⟨?_, ?_⟩
  · intro hp
    by_cases h0 : (argv.length : Int) = 1
    · have hs : startup argv b = ended (Outcome.returned 0) none none b.fds [Call.usage] := by
        unfold startup
        simp only [h0, if_true]
      rw [hs] at hp
      simp [ended] at hp
    · cases hopt : parse_options b.inet_aton b.opts (default_commands b).1
          (default_commands b).2 INADDR_ANY with
      | stop o out =>
        have hs : startup argv b =
            ended o (default_commands b).1 (default_commands b).2 b.fds out := by
          unfold startup
          simp only [h0, if_false, hopt]
        rw [hs] at hp
        simp [ended] at hp
      | parsed cc pc a =>
        have hs := startup_parsed argv b cc pc a hopt h0
        rw [hs] at hp
        obtain ⟨g1, g2, g3, -⟩ := after_options_commands argv b cc pc a
        obtain ⟨n1, n2⟩ := g3 hp
        obtain ⟨c, hc⟩ := Option.isSome_iff_exists.mp (Option.ne_none_iff_isSome.mp n1)
        obtain ⟨q, hq⟩ := Option.isSome_iff_exists.mp (Option.ne_none_iff_isSome.mp n2)
        obtain ⟨r1, r2⟩ := run_commands (startup argv b) script
        obtain ⟨d1, d2⟩ := default_commands_nonempty b
        obtain ⟨e1, e2⟩ := parse_options_commands _ _ _ _ _ _ _ _ hopt
        refine ⟨c, q, ?_, ?_, ?_, ?_⟩
        · unfold main
          rw [r1, hs, g1, hc]
        · unfold main
          rw [r2, hs, g2, hq]
        · intro hce
          subst hce
          rcases e1 with e1 | ⟨arg, e1, e3⟩
          · rw [hc] at e1
            exact absurd e1.symm d1
          · rw [hc] at e3
            simp only [Option.some.injEq] at e3
            rw [← e3] at e1
            exact e1
        · intro hqe
          subst hqe
          rcases e2 with e2 | ⟨arg, e2, e3⟩
          · rw [hq] at e2
            exact absurd e2.symm d2
          · rw [hq] at e3
            simp only [Option.some.injEq] at e3
            rw [← e3] at e2
            exact e2
  · intro cc pc addr h0 hopt hmiss
    have hs := startup_parsed argv b cc pc addr hopt h0
    obtain ⟨-, -, -, g4⟩ := after_options_commands argv b cc pc addr
    obtain ⟨k1, k2⟩ := g4 hmiss
    unfold main
    rw [hs, run_exited _ _ k1]
    exact ⟨k1, k2⟩

theorem commands_present_witness :
    (∃ c p, (main ["rclip", "9001", "9002"] boot_x11 [⟨1, 0, 1, 0⟩]).copy_command = some c ∧
        (main ["rclip", "9001", "9002"] boot_x11 [⟨1, 0, 1, 0⟩]).paste_command = some p ∧
        (c = "" → (OPT_c, "") ∈ boot_x11.opts) ∧ (p = "" → (OPT_p, "") ∈ boot_x11.opts)) ∧
      ((main ["rclip", "9001", "9002"] boot_no_display []).pc =
          PC.exited (Outcome.returned 1) ∧
        ∀ c ∈ (main ["rclip", "9001", "9002"] boot_no_display []).trace,
          c.socket_setup = false) :=
  ⟨(commands_present ["rclip", "9001", "9002"] boot_x11 [⟨1, 0, 1, 0⟩]).1 (by decide),
    (commands_present ["rclip", "9001", "9002"] boot_no_display []).2 none none 0
      (by decide) (by decide) (by decide)⟩

/-- C7 (counterexample): with `-c ""` and `-p ""` on the command line `main`
reaches the first `poll` with both command strings empty, and the child of an
accepted connection hands the empty string to the shell; and with neither
display variable set and no argument at all, `main` returns 0, not 1. -/
theorem empty_command_reaches_loop :
    (main ["rclip", "-c", "", "-p", "", "9001", "9002"] boot_empty_commands []).pc =
        PC.at_poll ∧
      (main ["rclip", "-c", "", "-p", "", "9001", "9002"] boot_empty_commands
        []).copy_command = some "" ∧
      (main ["rclip", "-c", "", "-p", "", "9001", "9002"] boot_empty_commands
        []).paste_command = some "" ∧
      (main ["rclip", "-c", "", "-p", "", "9001", "9002"] boot_empty_commands
        [⟨1, 0, 1, 0⟩, ⟨6, 0, 0, 0⟩, ⟨0, 0, 0, 0⟩, ⟨0, 0, 0, 0⟩]).trace =
        [Call.socket, Call.bind 3 0 9001, Call.listen 3 4,
          Call.socket, Call.bind 4 0 9002, Call.listen 4 4,
          Call.open_devnull, Call.poll, Call.accept4 3, Call.fork,
          Call.shutdown 6 SHUT_WR, Call.dup2 6 0, Call.dup2 5 1, Call.dup2 5 2,
          Call.execl "/bin/sh" [some "sh", some "-c", some ""]] ∧
      (main ["rclip"] boot_no_display []).pc = PC.exited (Outcome.returned 0) := by
  decide

/-! ## C8: failed system calls in the main loop -/

/-- Where the contract of the main loop on failed calls does hold: as long as
the `perror` of line 205 leaves `errno` as `accept4` set it (`p.errno = r.errno`).
A `poll` failing with `EINTR` is followed by another `poll`; an `accept4`
failing with a transient errno is followed, after the diagnostic, by another
`accept4` on the same endpoint; an `accept4` failing with `EAGAIN` ends the
pass over that endpoint without return. Every other failure of `poll`,
`accept4` or `fork` makes `main` return the non-zero status 2 having made no
call but diagnostics after the failed one, and nothing the environment does
afterwards makes the process call again. -/
theorem loop_failures (s : State) (r p : SysRet) (rest : List SysRet) (hr : r.ret < 0)
    (hp : p.errno = r.errno) :
    (s.pc = PC.at_poll → r.errno = EINTR →
      (step s r).pc = PC.at_poll ∧ (step s r).trace = s.trace ++ [Call.poll]) ∧
    (s.pc = PC.at_poll → r.errno ≠ EINTR →
      (step s r).pc = PC.exited (Outcome.returned 2) ∧
      (step s r).trace = s.trace ++ [Call.poll, Call.perror "error polling"] ∧
      run (step s r) rest = step s r) ∧
    (∀ i, s.pc = PC.at_accept i → r.errno = EAGAIN →
      (step s r).pc = (if i = 0 then PC.at_accept 1 else PC.at_poll) ∧
      (step s r).trace = s.trace ++ [Call.accept4 (s.poll_fd i)]) ∧
    (∀ i, s.pc = PC.at_accept i → transient r.errno = true →
      (run s [r, p]).pc = PC.at_accept i ∧
      (run s [r, p]).trace =
        s.trace ++ [Call.accept4 (s.poll_fd i), Call.perror "error accepting"]) ∧
    (∀ i, s.pc = PC.at_accept i → r.errno ≠ EAGAIN → transient r.errno = false →
      (run s [r, p]).pc = PC.exited (Outcome.returned 2) ∧
      (run s [r, p]).trace = s.trace ++ [Call.accept4 (s.poll_fd i),
        Call.perror "error accepting", Call.perror "error accepting"] ∧
      run (run s [r, p]) rest = run s [r, p]) ∧
    (∀ i c, s.pc = PC.at_fork i c →
      (step s r).pc = PC.exited (Outcome.returned 2) ∧
      (step s r).trace = s.trace ++ [Call.fork, Call.perror "error forking"] ∧
      run (step s r) rest = step s r) := by
  refine ⟨?_, ?_, ?_, ?_, ?_, ?_⟩
  · intro hpc he
    simp [step, hpc, step_poll, hr, he, State.emit]
  · intro hpc he
    obtain ⟨h1, h2⟩ := poll_failure_fatal s r hpc hr he
    exact ⟨h1, h2, run_exited _ _ h1 rest⟩
  · intro i hpc he
    have hs : step s r = for_from (s.emit [Call.accept4 (s.poll_fd i)]) (i + 1) := by
      simp [step, hpc, step_accept, hr, he]
    rw [hs, for_from_succ_pc, for_from_trace]
    simp [State.emit]
  · intro i hpc ht
    have hne := transient_ne_eagain _ ht
    have ht2 : transient p.errno = true := by rw [hp]; exact ht
    simp [run, step, hpc, step_accept, step_perror, hr, hne, ht2, State.emit]
  · intro i hpc he ht
    obtain ⟨h1, h2⟩ := accept_failure_fatal s i r p hpc hr he ht hp
    exact ⟨h1, h2, run_exited _ _ h1 rest⟩
  · intro i c hpc
    obtain ⟨h1, h2⟩ := fork_failure_fatal s i c r hpc hr
    exact ⟨h1, h2, run_exited _ _ h1 rest⟩

theorem loop_failures_example :
    (run (run first_poll [⟨1, 0, 1, 0⟩]) [⟨-1, 113, 0, 0⟩, ⟨0, 113, 0, 0⟩]).pc =
        PC.at_accept 0 ∧
      (step first_poll ⟨-1, 4, 0, 0⟩).pc = PC.at_poll ∧
      (run (run first_poll [⟨1, 0, 1, 0⟩]) [⟨-1, 24, 0, 0⟩, ⟨0, 24, 0, 0⟩]).pc =
        PC.exited (Outcome.returned 2) :=
  ⟨((loop_failures (run first_poll [⟨1, 0, 1, 0⟩]) ⟨-1, 113, 0, 0⟩ ⟨0, 113, 0, 0⟩ []
      (by decide) rfl).2.2.2.1 0 (by decide) (by decide)).1,
    ((loop_failures first_poll ⟨-1, 4, 0, 0⟩ ⟨0, 4, 0, 0⟩ [] (by decide) rfl).1
      (by decide) (by decide)).1,
    ((loop_failures (run first_poll [⟨1, 0, 1, 0⟩]) ⟨-1, 24, 0, 0⟩ ⟨0, 24, 0, 0⟩ []
      (by decide) rfl).2.2.2.2.1 0 (by decide) (by decide) (by decide)).1⟩

/-- C8 (code defect): the process is in the accept loop of the copy endpoint
and `accept4` fails with `EHOSTUNREACH`, one of the whitelisted transient
errno values; the `perror` of line 205 then leaves `errno = EINVAL` (as the C
library may: it does when the standard error stream is a write-only
descriptor). The `switch` of line 206 reads `errno` after `perror`, takes its
`default` branch, and `main` returns 2 instead of calling `accept4` again. -/
theorem transient_accept_error_ends_service :
    transient EHOSTUNREACH = true ∧
      (run first_poll [⟨1, 0, 1, 0⟩]).pc = PC.at_accept 0 ∧
      (run first_poll [⟨1, 0, 1, 0⟩, ⟨-1, EHOSTUNREACH, 0, 0⟩]).pc = PC.at_perror 0 ∧
      (run first_poll [⟨1, 0, 1, 0⟩, ⟨-1, EHOSTUNREACH, 0, 0⟩, ⟨0, 22, 0, 0⟩]).pc =
        PC.exited (Outcome.returned 2) ∧
      (run first_poll [⟨1, 0, 1, 0⟩, ⟨-1, EHOSTUNREACH, 0, 0⟩, ⟨0, 22, 0, 0⟩]).trace =
        first_poll.trace ++ [Call.poll, Call.accept4 3,
          Call.perror "error accepting", Call.perror "error accepting"] ∧
      (run first_poll [⟨1, 0, 1, 0⟩, ⟨-1, EHOSTUNREACH, 0, 0⟩, ⟨0, EHOSTUNREACH, 0, 0⟩]).pc =
        PC.at_accept 0 := by
  decide

/-! ## C9: which endpoints are drained -/

/-- C9 (code defect): `poll` reports only the copy endpoint ready (`revents`
is `POLLIN` for descriptor 3 and 0 for descriptor 4) and nothing is pending
after that. `accept4` is nevertheless attempted on the paste endpoint,
descriptor 4, in the same pass: the test of line 195 combines `revents` and
`POLLIN` with `|`, not `&`, and never skips an endpoint. -/
theorem accept_on_unready_endpoint :
    (run first_poll [⟨1, 0, POLLIN, 0⟩, ⟨-1, EAGAIN, 0, 0⟩, ⟨-1, EAGAIN, 0, 0⟩]).trace =
        first_poll.trace ++ [Call.poll, Call.accept4 3, Call.accept4 4] ∧
      (run first_poll [⟨1, 0, POLLIN, 0⟩, ⟨-1, EAGAIN, 0, 0⟩]).pc = PC.at_accept 1 ∧
      (run first_poll [⟨1, 0, POLLIN, 0⟩, ⟨-1, EAGAIN, 0, 0⟩]).revents1 = 0 ∧
      first_poll.fd1 = 4 := by
  decide

/-- Whatever `revents` a successful `poll` reports, `accept4` is attempted on
both endpoints in that pass, endpoint 0 first: with nothing pending the calls
are `poll`, `accept4` on the copy socket, `accept4` on the paste socket, and
the process is back at `poll` with `revents` cleared. -/
theorem every_endpoint_drained (s : State) (r a0 a1 : SysRet) (hpc : s.pc = PC.at_poll)
    (hr : 0 ≤ r.ret) (h0 : a0.ret < 0 ∧ a0.errno = EAGAIN)
    (h1 : a1.ret < 0 ∧ a1.errno = EAGAIN) :
    (run s [r, a0, a1]).trace =
        s.trace ++ [Call.poll, Call.accept4 s.fd0, Call.accept4 s.fd1] ∧
      (run s [r, a0, a1]).pc = PC.at_poll ∧
      (run s [r, a0, a1]).revents0 = 0 ∧ (run s [r, a0, a1]).revents1 = 0 := by
  have hr1 : ¬ r.ret < 0 := by omega
  have e1 : step s r =
      { s with
        revents0 := r.revents0
        revents1 := r.revents1
        pc := PC.at_accept 0
        trace := s.trace ++ [Call.poll] } := by
    simp only [step, hpc, step_poll, hr1, if_false, for_from_0_eq, State.emit]
  have e2 : ∀ t : State, t.pc = PC.at_accept 0 →
      step t a0 = { t with pc := PC.at_accept 1, trace := t.trace ++ [Call.accept4 t.fd0] } := by
    intro t ht
    simp only [step, ht, step_accept, h0.1, h0.2, if_true, State.emit, State.poll_fd]
    exact for_from_1_eq _
  have e3 : ∀ t : State, t.pc = PC.at_accept 1 →
      step t a1 = for_end { t with trace := t.trace ++ [Call.accept4 t.fd1] } := by
    intro t ht
    simp only [step, ht, step_accept, h1.1, h1.2, if_true, State.emit, State.poll_fd]
    exact for_from_2_eq _
  rw [run_cons, run_cons, run_cons, run_nil, e1, e2 _ rfl, e3 _ rfl]
  simp [for_end]

/-! ## C10: the child never comes back -/

/-- C10: when `fork` returns 0, for every endpoint index, every accepted
descriptor and every later system call result, the process makes after the
`fork` only `shutdown`, `dup2`, `execl` and `abort` calls (no `close`, `accept4`,
`poll` or `fork`) and is then waiting in `execl`, replaced by the shell, or
aborted; if `execl` returns, the process aborts at once, and nothing it
receives afterwards makes it call again. The parent of the same `fork` goes on
to `close` and the next `accept4` with nothing of the child's results in its
state. -/
theorem child_never_returns (s : State) (i : Nat) (c : Int) (r : SysRet)
    (rest : List SysRet) (hpc : s.pc = PC.at_fork i c) (hr : r.ret = 0) :
    ((run s (r :: rest)).pc = PC.at_execl i ∨
        (run s (r :: rest)).pc = PC.exited Outcome.execd ∨
        (run s (r :: rest)).pc = PC.exited Outcome.aborted) ∧
      (∃ cs, (run s (r :: rest)).trace = s.trace ++ Call.fork :: cs ∧
        ∀ x ∈ cs, x.child_call = true) ∧
      (∀ e more, rest = e :: more → e.ret < 0 →
        (run s (r :: rest)).pc = PC.exited Outcome.aborted ∧
        ∃ cs, (run s (r :: rest)).trace = s.trace ++ Call.fork :: (cs ++ [Call.abort])) ∧
      (∀ e more, rest = e :: more → 0 ≤ e.ret → (i = 0 ∨ i = 1) →
        (run s (r :: rest)).pc = PC.exited Outcome.execd) ∧
      (∀ p : SysRet, 0 < p.ret →
        (step s p).pc = PC.at_accept i ∧
        (step s p).trace = s.trace ++ [Call.fork, Call.close c] ∧
        (step s p).copy_command = s.copy_command ∧
        (step s p).paste_command = s.paste_command) := by
  have hr1 : ¬ r.ret < 0 := by omega
  have hstep : step s r = child (s.emit [Call.fork]) i c := by
    simp [step, hpc, step_fork, hr]
  have hparent : ∀ p : SysRet, 0 < p.ret →
      (step s p).pc = PC.at_accept i ∧
      (step s p).trace = s.trace ++ [Call.fork, Call.close c] ∧
      (step s p).copy_command = s.copy_command ∧
      (step s p).paste_command = s.paste_command := by
    intro p hp
    have h1 : ¬ p.ret < 0 := by omega
    have h2 : ¬ p.ret = 0 := by omega
    simp [step, hpc, step_fork, h1, h2, State.emit]
  by_cases hi : i = 0 ∨ i = 1
  · have hc : (child (s.emit [Call.fork]) i c).pc = PC.at_execl i ∧
        ∃ cs, (child (s.emit [Call.fork]) i c).trace = s.trace ++ Call.fork :: cs ∧
          ∀ x ∈ cs, x.child_call = true := by
      rcases hi with hi | hi <;> subst hi <;>
        simp [child, State.emit, Call.child_call]
    obtain ⟨hc1, cs, hc2, hc3⟩ := hc
    cases rest with
    | nil =>
      rw [run_cons, run_nil, hstep]
      refine ⟨Or.inl hc1, ⟨cs, hc2, hc3⟩, ?_, ?_, hparent⟩
      · intro e more h; simp at h
      · intro e more h; simp at h
    | cons e more =>
      rw [run_cons, run_cons, hstep]
      generalize hch : child (s.emit [Call.fork]) i c = ch at hc1 hc2
      by_cases he : e.ret < 0
      · have hx : step ch e =
            { (ch.emit [Call.execl "/bin/sh"
                [some "sh", some "-c", if i = 0 then ch.copy_command else ch.paste_command]]).emit
                [Call.abort] with
              pc := PC.exited Outcome.aborted } := by
          simp [step, hc1, step_execl, he]
        have htr : (ch.trace ++ [Call.execl "/bin/sh"
              [some "sh", some "-c", if i = 0 then ch.copy_command else ch.paste_command]]) ++
              [Call.abort] =
            s.trace ++ Call.fork :: ((cs ++ [Call.execl "/bin/sh"
              [some "sh", some "-c", if i = 0 then ch.copy_command else ch.paste_command]]) ++
              [Call.abort]) := by
          rw [hc2]; simp
        rw [hx, run_exited _ Outcome.aborted rfl]
        refine ⟨Or.inr (Or.inr rfl), ⟨_, htr, ?_⟩, ?_, ?_, hparent⟩
        · intro x hxm
          simp only [List.mem_append, List.mem_singleton] at hxm
          rcases hxm with (h | h) | h
          · exact hc3 x h
          · subst h; rfl
          · subst h; rfl
        · intro e2 more2 _ _
          exact ⟨rfl, _, htr⟩
        · intro e2 more2 h h2 _
          simp only [List.cons.injEq] at h
          rw [← h.1] at h2
          omega
      · have hx : step ch e =
            { ch.emit [Call.execl "/bin/sh"
                [some "sh", some "-c", if i = 0 then ch.copy_command else ch.paste_command]] with
              fds := ch.fds.exec
              pc := PC.exited Outcome.execd } := by
          simp [step, hc1, step_execl, he, State.emit]
        have htr : ch.trace ++ [Call.execl "/bin/sh"
              [some "sh", some "-c", if i = 0 then ch.copy_command else ch.paste_command]] =
            s.trace ++ Call.fork :: (cs ++ [Call.execl "/bin/sh"
              [some "sh", some "-c", if i = 0 then ch.copy_command else ch.paste_command]]) := by
          rw [hc2]; simp
        rw [hx, run_exited _ Outcome.execd rfl]
        refine ⟨Or.inr (Or.inl rfl), ⟨_, htr, ?_⟩, ?_, ?_, hparent⟩
        · intro x hxm
          simp only [List.mem_append, List.mem_singleton] at hxm
          rcases hxm with h | h
          · exact hc3 x h
          · subst h; rfl
        · intro e2 more2 h h2
          simp only [List.cons.injEq] at h
          rw [← h.1] at h2
          exact absurd h2 he
        · intro _ _ _ _ _
          rfl
  · have hc : child (s.emit [Call.fork]) i c =
        { s.emit [Call.fork] with
          trace := (s.emit [Call.fork]).trace ++ [Call.abort],
          pc := PC.exited Outcome.aborted } := by
      simp only [not_or] at hi
      simp [child, hi.1, hi.2]
    rw [run_cons, hstep, hc, run_exited _ Outcome.aborted rfl]
    refine ⟨Or.inr (Or.inr rfl), ⟨[Call.abort], by simp [State.emit], ?_⟩, ?_, ?_, hparent⟩
    · intro x hxm
      simp at hxm; subst hxm; rfl
    · intro _ _ _ _
      exact ⟨rfl, [], by simp [State.emit]⟩
    · intro _ _ _ _ h
      exact absurd h hi

theorem child_never_returns_witness :
    (run first_poll [⟨1, 0, 1, 0⟩, ⟨6, 0, 0, 0⟩]).pc = PC.at_fork 0 6 ∧
      (run (run first_poll [⟨1, 0, 1, 0⟩, ⟨6, 0, 0, 0⟩])
        (⟨0, 0, 0, 0⟩ :: [⟨-1, 2, 0, 0⟩])).pc = PC.exited Outcome.aborted :=
  ⟨by decide,
    ((child_never_returns (run first_poll [⟨1, 0, 1, 0⟩, ⟨6, 0, 0, 0⟩]) 0 6 ⟨0, 0, 0, 0⟩
      [⟨-1, 2, 0, 0⟩] (by decide) (by decide)).2.2.1 ⟨-1, 2, 0, 0⟩ [] rfl (by decide)).1⟩

end Rclip
